import Mathlib

/-!
Verification of the ChainHealth in-memory query engine (server routes +
generator + client query builder) against its specification.

The JavaScript source is shallowly embedded: JS numbers are modelled as exact
rationals (`ℚ`), machine strings as `String`, arrays as `List`, and the
dynamically typed values that flow through the sort comparators as an
inductive `JSVal` (number / string / NaN / undefined).  The in-place
`Array.prototype.sort` is modelled by a pure insertion sort driven by the
comparator; native sorts agree with it up to tie order, which is all the
properties below depend on.  `NaN` is modelled as `Option.none` where it
arises from parsing.
-/

namespace ChainHealth

/-! ### JS primitive semantics: parseInt, parseFloat, Number, string order -/

/-- Decimal digits of a character list folded into a natural number. -/
def digitsToNat (ds : List Char) : Nat :=
  ds.foldl (fun n c => n * 10 + (c.toNat - 48)) 0

/-- JS `parseInt(s)` (radix 10): skip leading whitespace, optional sign,
longest digit run; `none` models `NaN`.  (The `0x` prefix and exponent forms
never occur in this code base.) -/
def parseIntChars (cs : List Char) : Option Int :=
  let cs := cs.dropWhile (·.isWhitespace)
  let (sign, cs) : Int × List Char :=
    match cs with
    | '-' :: r => (-1, r)
    | '+' :: r => (1, r)
    | r => (1, r)
  let ds := cs.takeWhile (·.isDigit)
  if ds.isEmpty then none else some (sign * (digitsToNat ds : Int))

/-- JS `parseInt` applied to a possibly-absent query value
(`parseInt(undefined)` is `NaN`). -/
def parseIntJS : Option String → Option Int
  | none => none
  | some s => parseIntChars s.data

/-- JS `parseFloat(s)`: skip leading whitespace, optional sign, digits,
optional fraction; trailing garbage ignored; `none` models `NaN`.
(Exponent notation never occurs in this code base.) -/
def parseFloatChars (cs : List Char) : Option ℚ :=
  let cs := cs.dropWhile (·.isWhitespace)
  let (sign, cs) : ℚ × List Char :=
    match cs with
    | '-' :: r => (-1, r)
    | '+' :: r => (1, r)
    | r => (1, r)
  let intDs := cs.takeWhile (·.isDigit)
  let rest := cs.drop intDs.length
  let fracDs :=
    match rest with
    | '.' :: r => r.takeWhile (·.isDigit)
    | _ => []
  if intDs.isEmpty && fracDs.isEmpty then none
  else some (sign * ((digitsToNat intDs : ℚ) +
      (digitsToNat fracDs : ℚ) / (10 : ℚ) ^ fracDs.length))

/-- JS `parseFloat` on a string. -/
def parseFloatQ (s : String) : Option ℚ :=
  parseFloatChars s.data

/-- Lexicographic order on character lists by code point: the semantics of
JS `<` on two strings (identical to code-unit order on the ASCII data in
this repository). -/
def charsLt : List Char → List Char → Bool
  | [], [] => false
  | [], _ :: _ => true
  | _ :: _, [] => false
  | a :: as, b :: bs =>
    if a.toNat < b.toNat then true
    else if b.toNat < a.toNat then false
    else charsLt as bs

/-- JS `<` on two strings. -/
def jsStrLt (s t : String) : Bool :=
  charsLt s.data t.data

/-- A dynamically typed JS value as it flows through the route handlers. -/
inductive JSVal where
  | num (q : ℚ)
  | str (s : String)
  | nan
  | undefined
deriving DecidableEq, Repr

/-- JS `ToNumber` coercion (`none` models `NaN`).  A string is trimmed and
must be numeric in its entirety; the empty string converts to `0`. -/
def toNumberJS : JSVal → Option ℚ
  | .num q => some q
  | .nan => none
  | .undefined => none
  | .str s =>
    let t := ((s.data.dropWhile (·.isWhitespace)).reverse.dropWhile
      (·.isWhitespace)).reverse
    if t.isEmpty then some 0
    else
      -- full-string numeric parse: sign, digits, optional fraction, nothing else
      let (sign, cs) : ℚ × List Char :=
        match t with
        | '-' :: r => (-1, r)
        | '+' :: r => (1, r)
        | r => (1, r)
      let intDs := cs.takeWhile (·.isDigit)
      let rest := cs.drop intDs.length
      let fracDs :=
        match rest with
        | '.' :: r => r.takeWhile (·.isDigit)
        | _ => []
      let leftover :=
        match rest with
        | '.' :: r => r.drop fracDs.length
        | r => r
      if intDs.isEmpty && fracDs.isEmpty then none
      else if leftover.isEmpty then
        some (sign * ((digitsToNat intDs : ℚ) +
          (digitsToNat fracDs : ℚ) / (10 : ℚ) ^ fracDs.length))
      else none

/-- JS `<` on two dynamically typed values: string/string compares
lexically, any other combination converts both sides with `ToNumber` and
compares numerically, with any `NaN` making the comparison false. -/
def jsLt : JSVal → JSVal → Bool
  | .str x, .str y => jsStrLt x y
  | a, b =>
    match toNumberJS a, toNumberJS b with
    | some x, some y => decide (x < y)
    | _, _ => false

/-- JS `parseFloat(v)` on a dynamically typed value (numbers round-trip,
`NaN`/`undefined` stringify to non-numeric text). -/
def parseFloatJS : JSVal → JSVal
  | .num q => .num q
  | .str s =>
    match parseFloatQ s with
    | some q => .num q
    | none => .nan
  | .nan => .nan
  | .undefined => .nan

/-! ### The shared sort comparator of the route handlers

`stakers.js`, `nodes.js` and `transactions.js` use

    let aVal = a[sortBy]; let bVal = b[sortBy];
    if (typeof aVal === 'string' && !isNaN(parseFloat(aVal))) {
      aVal = parseFloat(aVal); bVal = parseFloat(bVal);
    }
    if (sortOrder === 'asc') return aVal > bVal ? 1 : -1;
    return aVal < bVal ? 1 : -1;

`healthRecords.js` uses the same comparator but *without* the
numeric-string branch. -/

/-- The comparator with the `parseFloat` branch (stakers/nodes/transactions). -/
def jsSortComparator (sortOrder : String) (aVal bVal : JSVal) : Int :=
  let takeBranch :=
    match aVal with
    | .str s => (parseFloatQ s).isSome
    | _ => false
  let a := if takeBranch then parseFloatJS aVal else aVal
  let b := if takeBranch then parseFloatJS bVal else bVal
  if sortOrder = "asc" then (if jsLt b a then 1 else -1)
  else (if jsLt a b then 1 else -1)

/-- The comparator of the health-records route: no `parseFloat` branch. -/
def jsSortComparatorRaw (sortOrder : String) (aVal bVal : JSVal) : Int :=
  if sortOrder = "asc" then (if jsLt bVal aVal then 1 else -1)
  else (if jsLt aVal bVal then 1 else -1)

/-! ### A pure model of `Array.prototype.sort(cmp)`

The native in-place sort keeps `a` before `b` when `cmp(a,b) <= 0`; we model
it by insertion sort on the predicate `le a b := cmp a b ≤ 0`. -/

/-- Insert `a` into `l` before the first element `b` with `le a b`. -/
def insertSorted (le : α → α → Bool) (a : α) : List α → List α
  | [] => [a]
  | b :: l => if le a b then a :: b :: l else b :: insertSorted le a l

/-- Insertion sort by a boolean "keeps-order" predicate. -/
def sortWith (le : α → α → Bool) : List α → List α
  | [] => []
  | a :: l => insertSorted le a (sortWith le l)

theorem length_insertSorted (le : α → α → Bool) (a : α) (l : List α) :
    (insertSorted le a l).length = l.length + 1 := by
  induction l with
  | nil => rfl
  | cons b l ih =>
    simp only [insertSorted]
    by_cases h : le a b <;> simp [h, ih]

theorem length_sortWith (le : α → α → Bool) (l : List α) :
    (sortWith le l).length = l.length := by
  induction l with
  | nil => rfl
  | cons a l ih => simp [sortWith, length_insertSorted, ih]

theorem mem_insertSorted {le : α → α → Bool} {a x : α} {l : List α}
    (h : x ∈ insertSorted le a l) : x = a ∨ x ∈ l := by
  induction l with
  | nil => simpa [insertSorted] using h
  | cons b l ih =>
    simp only [insertSorted] at h
    by_cases hle : le a b
    · simp [hle] at h
      rcases h with h | h | h
      · exact Or.inl h
      · exact Or.inr (by simp [h])
      · exact Or.inr (by simp [h])
    · simp [hle] at h
      rcases h with h | h
      · exact Or.inr (by simp [h])
      · rcases ih h with h | h
        · exact Or.inl h
        · exact Or.inr (by simp [h])

theorem mem_sortWith {le : α → α → Bool} {x : α} {l : List α}
    (h : x ∈ sortWith le l) : x ∈ l := by
  induction l with
  | nil => simp [sortWith] at h
  | cons a l ih =>
    rcases mem_insertSorted h with h | h
    · simp [h]
    · simp [ih h]

/-- Inserting into a `le`-pairwise list keeps it pairwise, provided `le` is
total and transitive on a predicate `P` covering all elements involved. -/
theorem pairwise_insertSorted {le : α → α → Bool} {P : α → Prop}
    (htot : ∀ ⦃a b⦄, P a → P b → le a b = true ∨ le b a = true)
    (htrans : ∀ ⦃a b c⦄, P a → P b → P c →
      le a b = true → le b c = true → le a c = true)
    {a : α} {l : List α} (hPa : P a) (hPl : ∀ x ∈ l, P x)
    (h : l.Pairwise (le · · = true)) :
    (insertSorted le a l).Pairwise (le · · = true) := by
  induction l with
  | nil => simp [insertSorted]
  | cons b l ih =>
    have hPb : P b := hPl b (by simp)
    have hPl' : ∀ x ∈ l, P x := fun x hx => hPl x (by simp [hx])
    rcases List.pairwise_cons.mp h with ⟨hbl, hl⟩
    simp only [insertSorted]
    by_cases hle : le a b
    · simp only [hle, if_true]
      refine List.pairwise_cons.mpr ⟨?_, h⟩
      intro x hx
      rcases hx with _ | hx
      · exact hle
      · exact htrans hPa hPb (hPl' _ (by assumption)) hle (hbl _ (by assumption))
    · simp only [hle, if_false]
      refine List.pairwise_cons.mpr ⟨?_, ih (fun x hx => hPl' x hx) hl⟩
      intro x hx
      rcases mem_insertSorted hx with rfl | hx
      · rcases htot hPa hPb with h1 | h1
        · exact absurd h1 (by simpa using hle)
        · exact h1
      · exact hbl x hx

/-- `sortWith le` produces a `le`-pairwise list when `le` is total and
transitive on a predicate covering the input. -/
theorem pairwise_sortWith {le : α → α → Bool} {P : α → Prop}
    (htot : ∀ ⦃a b⦄, P a → P b → le a b = true ∨ le b a = true)
    (htrans : ∀ ⦃a b c⦄, P a → P b → P c →
      le a b = true → le b c = true → le a c = true)
    {l : List α} (hPl : ∀ x ∈ l, P x) :
    (sortWith le l).Pairwise (le · · = true) := by
  induction l with
  | nil => simp [sortWith]
  | cons a l ih =>
    have hPa : P a := hPl a (by simp)
    have hPl' : ∀ x ∈ l, P x := fun x hx => hPl x (by simp [hx])
    exact pairwise_insertSorted htot htrans hPa
      (fun x hx => hPl' x (mem_sortWith hx)) (ih hPl')

/-! ### Query-parameter clamping and pagination (shared by all list routes) -/

/-- JS `x || d` on the result of `parseInt`: both `NaN` and `0` are falsy
and collapse to the default. -/
def jsOrDefault (x : Option Int) (d : Int) : Int :=
  match x with
  | none => d
  | some 0 => d
  | some n => n

/-- `const page = Math.max(1, parseInt(req.query.page) || 1)`. -/
def clampPage (raw : Option String) : Int :=
  max 1 (jsOrDefault (parseIntJS raw) 1)

/-- `const limit = Math.min(100, Math.max(1, parseInt(req.query.limit) || 20))`. -/
def clampLimit (raw : Option String) : Int :=
  min 100 (max 1 (jsOrDefault (parseIntJS raw) 20))

/-- The uniform pagination metadata object. -/
structure Pagination where
  page : Nat
  limit : Nat
  totalItems : Nat
  totalPages : Nat
  hasMore : Bool
deriving DecidableEq, Repr

/-- The uniform `{ data, pagination }` list response. -/
structure ListResponse (α : Type) where
  data : List α
  pagination : Pagination
deriving DecidableEq, Repr

/-- The pagination block shared verbatim by every list route:

    const totalItems = filtered.length;
    const totalPages = Math.ceil(totalItems / limit);
    const startIndex = (page - 1) * limit;
    const paginated = filtered.slice(startIndex, startIndex + limit);

`Math.ceil(totalItems / limit)` on these magnitudes equals the exact ceiling
division `(totalItems + limit - 1) / limit`. -/
def paginateList (filtered : List α) (page limit : Nat) : ListResponse α :=
  let totalItems := filtered.length
  let totalPages := (totalItems + limit - 1) / limit
  let startIndex := (page - 1) * limit
  { data := (filtered.drop startIndex).take limit
    pagination :=
      { page := page, limit := limit, totalItems := totalItems,
        totalPages := totalPages, hasMore := decide (page < totalPages) } }

/-! ### The data model (generator.js record shapes)

Monetary amounts, uptime and rates are produced by `randomFloat`, i.e. they
are *fixed-decimal strings*; counters and timestamps are JS numbers.  The
nested `metadata` object of a node is never read by any route and is
omitted. -/

structure Node where
  nodeId : String
  operatorAddress : String
  nodeType : String
  region : String
  status : String
  stakedAmount : String
  totalRewardsEarned : String
  uptime : String
  validationsPerformed : Nat
  validationsSuccessful : Int
  validationsFailed : Int
  slashingEvents : Nat
  registeredAt : Int
  lastHeartbeat : Int
deriving DecidableEq, Repr

structure Staker where
  stakerId : String
  walletAddress : String
  stakedAmount : String
  pendingRewards : String
  claimedRewards : String
  lockPeriod : Nat
  unlockTime : Int
  stakingMultiplier : ℚ
  delegatedTo : String
deriving DecidableEq, Repr

/-- A health record's `value` is an integer for seven data types but a
1-decimal *string* for `BLOOD_OXYGEN` (`randomFloat(range[0], range[1], 1)`),
so it is carried as a dynamically typed `JSVal`. -/
structure HealthRecord where
  recordId : String
  userAddress : String
  dataType : String
  value : JSVal
  unit : String
  deviceType : String
  timestamp : Int
  validatedBy : String
  validationStatus : String
  rewardEarned : String
deriving DecidableEq, Repr

structure NodeReward where
  nodeId : String
  reward : String
  validations : Nat
deriving DecidableEq, Repr

structure Epoch where
  epochNumber : Int
  startTime : Int
  endTime : Int
  totalRewardsPool : String
  totalValidations : Nat
  activeNodes : Nat
  activeStakers : Nat
  nodeRewards : List NodeReward
deriving DecidableEq, Repr

structure Transaction where
  txHash : String
  txType : String
  fromAddr : String
  toAddr : String
  amount : String
  gasUsed : Nat
  gasPrice : Nat
  timestamp : Int
  blockNumber : Nat
  status : String
  nonce : Nat
deriving DecidableEq, Repr

/-! ### Dynamic field access `record[sortBy]` per entity -/

def getNodeField (n : Node) : String → JSVal
  | "nodeId" => .str n.nodeId
  | "operatorAddress" => .str n.operatorAddress
  | "nodeType" => .str n.nodeType
  | "region" => .str n.region
  | "status" => .str n.status
  | "stakedAmount" => .str n.stakedAmount
  | "totalRewardsEarned" => .str n.totalRewardsEarned
  | "uptime" => .str n.uptime
  | "validationsPerformed" => .num n.validationsPerformed
  | "validationsSuccessful" => .num n.validationsSuccessful
  | "validationsFailed" => .num n.validationsFailed
  | "slashingEvents" => .num n.slashingEvents
  | "registeredAt" => .num n.registeredAt
  | "lastHeartbeat" => .num n.lastHeartbeat
  | _ => .undefined

def getStakerField (s : Staker) : String → JSVal
  | "stakerId" => .str s.stakerId
  | "walletAddress" => .str s.walletAddress
  | "stakedAmount" => .str s.stakedAmount
  | "pendingRewards" => .str s.pendingRewards
  | "claimedRewards" => .str s.claimedRewards
  | "lockPeriod" => .num s.lockPeriod
  | "unlockTime" => .num s.unlockTime
  | "stakingMultiplier" => .num s.stakingMultiplier
  | "delegatedTo" => .str s.delegatedTo
  | _ => .undefined

def getHealthField (r : HealthRecord) : String → JSVal
  | "recordId" => .str r.recordId
  | "userAddress" => .str r.userAddress
  | "dataType" => .str r.dataType
  | "value" => r.value
  | "unit" => .str r.unit
  | "deviceType" => .str r.deviceType
  | "timestamp" => .num r.timestamp
  | "validatedBy" => .str r.validatedBy
  | "validationStatus" => .str r.validationStatus
  | "rewardEarned" => .str r.rewardEarned
  | _ => .undefined

def getTransactionField (t : Transaction) : String → JSVal
  | "txHash" => .str t.txHash
  | "txType" => .str t.txType
  | "from" => .str t.fromAddr
  | "to" => .str t.toAddr
  | "amount" => .str t.amount
  | "gasUsed" => .num t.gasUsed
  | "gasPrice" => .num t.gasPrice
  | "timestamp" => .num t.timestamp
  | "blockNumber" => .num t.blockNumber
  | "status" => .str t.status
  | "nonce" => .num t.nonce
  | _ => .undefined

/-! ### Filter helpers -/

/-- JS truthiness of a possibly-absent string query value: absent and the
empty string are falsy, every other string is truthy.  (`"0"` is a truthy
string.) -/
def truthyStr : Option String → Bool
  | none => false
  | some s => !(s = "")

/-- JS `x >= y` on two possibly-NaN numbers: false when either is NaN. -/
def optGe (x y : Option ℚ) : Bool :=
  match x, y with
  | some a, some b => decide (b ≤ a)
  | _, _ => false

/-- JS `x <= y` on two possibly-NaN numbers: false when either is NaN. -/
def optLe (x y : Option ℚ) : Bool :=
  match x, y with
  | some a, some b => decide (a ≤ b)
  | _, _ => false

/-- JS `timestamp >= parseInt(d)` (false when the parse yields NaN). -/
def tsGe (ts : Int) (d : Option Int) : Bool :=
  match d with
  | some k => decide (k ≤ ts)
  | none => false

/-- JS `timestamp <= parseInt(d)` (false when the parse yields NaN). -/
def tsLe (ts : Int) (d : Option Int) : Bool :=
  match d with
  | some k => decide (ts ≤ k)
  | none => false

/-! ### GET /api/nodes (routes/nodes.js) -/

/-- Raw query string of the nodes list route; `none` is an absent parameter. -/
structure NodesQuery where
  page : Option String
  limit : Option String
  status : Option String
  nodeType : Option String
  region : Option String
  sortBy : Option String
  sortOrder : Option String
deriving DecidableEq, Repr

def nodesHandler (nodes : List Node) (q : NodesQuery) : ListResponse Node :=
  let page := (clampPage q.page).toNat
  let limit := (clampLimit q.limit).toNat
  let sortOrder := q.sortOrder.getD "desc"
  let f0 := nodes
  let f1 := if truthyStr q.status then
      f0.filter (fun n => n.status == (q.status.getD "").toUpper) else f0
  let f2 := if truthyStr q.nodeType then
      f1.filter (fun n => n.nodeType == (q.nodeType.getD "").toUpper) else f1
  let f3 := if truthyStr q.region then
      f2.filter (fun n => n.region == (q.region.getD "").toUpper) else f2
  let sorted := if truthyStr q.sortBy then
      sortWith (fun a b => decide (jsSortComparator sortOrder
        (getNodeField a (q.sortBy.getD ""))
        (getNodeField b (q.sortBy.getD "")) ≤ 0)) f3
    else f3
  paginateList sorted page limit

/-! ### GET /api/stakers (routes/stakers.js) -/

structure StakersQuery where
  page : Option String
  limit : Option String
  minStake : Option String
  maxStake : Option String
  sortBy : Option String
  sortOrder : Option String
deriving DecidableEq, Repr

def stakersHandler (stakers : List Staker) (q : StakersQuery) :
    ListResponse Staker :=
  let page := (clampPage q.page).toNat
  let limit := (clampLimit q.limit).toNat
  let sortOrder := q.sortOrder.getD "desc"
  let f0 := stakers
  let f1 := if truthyStr q.minStake then
      f0.filter (fun s => optGe (parseFloatQ s.stakedAmount)
        (parseFloatQ (q.minStake.getD ""))) else f0
  let f2 := if truthyStr q.maxStake then
      f1.filter (fun s => optLe (parseFloatQ s.stakedAmount)
        (parseFloatQ (q.maxStake.getD ""))) else f1
  let sorted := if truthyStr q.sortBy then
      sortWith (fun a b => decide (jsSortComparator sortOrder
        (getStakerField a (q.sortBy.getD ""))
        (getStakerField b (q.sortBy.getD "")) ≤ 0)) f2
    else f2
  paginateList sorted page limit

/-! ### GET /api/health-records (routes/healthRecords.js)

Unlike the other list routes this one always sorts (`sortBy` defaults to
`'timestamp'`) and its comparator has **no** numeric-string branch. -/

structure HealthQuery where
  page : Option String
  limit : Option String
  dataType : Option String
  deviceType : Option String
  validationStatus : Option String
  userAddress : Option String
  startDate : Option String
  endDate : Option String
  sortBy : Option String
  sortOrder : Option String
deriving DecidableEq, Repr

def healthRecordsHandler (healthRecords : List HealthRecord) (q : HealthQuery) :
    ListResponse HealthRecord :=
  let page := (clampPage q.page).toNat
  let limit := (clampLimit q.limit).toNat
  let sortBy := q.sortBy.getD "timestamp"
  let sortOrder := q.sortOrder.getD "desc"
  let f0 := healthRecords
  let f1 := if truthyStr q.dataType then
      f0.filter (fun r => r.dataType == (q.dataType.getD "").toUpper) else f0
  let f2 := if truthyStr q.deviceType then
      f1.filter (fun r => r.deviceType == (q.deviceType.getD "").toUpper) else f1
  let f3 := if truthyStr q.validationStatus then
      f2.filter (fun r =>
        r.validationStatus == (q.validationStatus.getD "").toUpper) else f2
  let f4 := if truthyStr q.userAddress then
      f3.filter (fun r =>
        r.userAddress.toLower == (q.userAddress.getD "").toLower) else f3
  let f5 := if truthyStr q.startDate then
      f4.filter (fun r => tsGe r.timestamp (parseIntJS q.startDate)) else f4
  let f6 := if truthyStr q.endDate then
      f5.filter (fun r => tsLe r.timestamp (parseIntJS q.endDate)) else f5
  let sorted := sortWith (fun a b => decide (jsSortComparatorRaw sortOrder
      (getHealthField a sortBy) (getHealthField b sortBy) ≤ 0)) f6
  paginateList sorted page limit

/-! ### GET /api/transactions (routes/transactions.js) -/

structure TransactionsQuery where
  page : Option String
  limit : Option String
  txType : Option String
  status : Option String
  address : Option String
  startDate : Option String
  endDate : Option String
  sortBy : Option String
  sortOrder : Option String
deriving DecidableEq, Repr

def transactionsHandler (transactions : List Transaction)
    (q : TransactionsQuery) : ListResponse Transaction :=
  let page := (clampPage q.page).toNat
  let limit := (clampLimit q.limit).toNat
  let sortBy := q.sortBy.getD "timestamp"
  let sortOrder := q.sortOrder.getD "desc"
  let f0 := transactions
  let f1 := if truthyStr q.txType then
      f0.filter (fun tx => tx.txType == (q.txType.getD "").toUpper) else f0
  let f2 := if truthyStr q.status then
      f1.filter (fun tx => tx.status == (q.status.getD "").toUpper) else f1
  let f3 := if truthyStr q.address then
      f2.filter (fun tx =>
        let addr := (q.address.getD "").toLower
        tx.fromAddr.toLower == addr || tx.toAddr.toLower == addr) else f2
  let f4 := if truthyStr q.startDate then
      f3.filter (fun tx => tsGe tx.timestamp (parseIntJS q.startDate)) else f3
  let f5 := if truthyStr q.endDate then
      f4.filter (fun tx => tsLe tx.timestamp (parseIntJS q.endDate)) else f4
  let sorted := sortWith (fun a b => decide (jsSortComparator sortOrder
      (getTransactionField a sortBy) (getTransactionField b sortBy) ≤ 0)) f5
  paginateList sorted page limit

/-! ### GET /api/epochs (routes/epochs.js) -/

structure EpochsQuery where
  page : Option String
  limit : Option String
  sortOrder : Option String
deriving DecidableEq, Repr

/-- The list projection: the `nodeRewards` array is dropped and replaced by
its length. -/
structure SimplifiedEpoch where
  epochNumber : Int
  startTime : Int
  endTime : Int
  totalRewardsPool : String
  totalValidations : Nat
  activeNodes : Nat
  activeStakers : Nat
  topNodeRewardsCount : Nat
deriving DecidableEq, Repr

def simplifyEpoch (e : Epoch) : SimplifiedEpoch :=
  { epochNumber := e.epochNumber, startTime := e.startTime,
    endTime := e.endTime, totalRewardsPool := e.totalRewardsPool,
    totalValidations := e.totalValidations, activeNodes := e.activeNodes,
    activeStakers := e.activeStakers,
    topNodeRewardsCount := e.nodeRewards.length }

/-- `sortOrder === 'asc' ? a.epochNumber - b.epochNumber
     : b.epochNumber - a.epochNumber`. -/
def epochCompare (sortOrder : String) (a b : Epoch) : Int :=
  if sortOrder = "asc" then a.epochNumber - b.epochNumber
  else b.epochNumber - a.epochNumber

def epochsListHandler (epochs : List Epoch) (q : EpochsQuery) :
    ListResponse SimplifiedEpoch :=
  let page := (clampPage q.page).toNat
  let limit := (clampLimit q.limit).toNat
  let sortOrder := q.sortOrder.getD "desc"
  let sorted := sortWith
    (fun a b => decide (epochCompare sortOrder a b ≤ 0)) epochs
  let totalItems := sorted.length
  let totalPages := (totalItems + limit - 1) / limit
  let startIndex := (page - 1) * limit
  { data := ((sorted.drop startIndex).take limit).map simplifyEpoch
    pagination :=
      { page := page, limit := limit, totalItems := totalItems,
        totalPages := totalPages, hasMore := decide (page < totalPages) } }

/-! ### Pagination arithmetic -/

/-- The `(t + l - 1) / l` computation of the pagination block is exact
ceiling division. -/
theorem natCeilDiv_eq_ceil (t l : Nat) (hl : 1 ≤ l) :
    (((t + l - 1) / l : Nat) : ℤ) = ⌈(t : ℚ) / (l : ℚ)⌉ := by
  have h0 : (0 : ℚ) < (l : ℚ) := by exact_mod_cast hl
  have hdm := Nat.div_add_mod (t + l - 1) l
  have hr : (t + l - 1) % l < l := Nat.mod_lt _ (by omega)
  set q := (t + l - 1) / l with hq
  have hcomm : q * l = l * q := Nat.mul_comm q l
  have hub : q * l + 1 ≤ t + l := by omega
  have hlb : t ≤ q * l := by omega
  symm
  rw [Int.ceil_eq_iff]
  constructor
  · have hub' : (q : ℚ) * l + 1 ≤ (t : ℚ) + l := by exact_mod_cast hub
    have hexp : ((q : ℚ) - 1) * l = (q : ℚ) * l - l := by ring
    push_cast
    exact (lt_div_iff₀ h0).mpr (by linarith)
  · have hlb' : (t : ℚ) ≤ (q : ℚ) * l := by exact_mod_cast hlb
    push_cast
    rw [div_le_iff₀ h0]
    exact hlb'

/-- The filtered set always fits in `totalPages` pages. -/
theorem length_le_totalPages_mul (t l : Nat) (hl : 1 ≤ l) :
    t ≤ ((t + l - 1) / l) * l := by
  have hdm := Nat.div_add_mod (t + l - 1) l
  have hr : (t + l - 1) % l < l := Nat.mod_lt _ (by omega)
  have hcomm : ((t + l - 1) / l) * l = l * ((t + l - 1) / l) :=
    Nat.mul_comm _ _
  omega

/-- C1: For every collection list endpoint, for every valid page and limit,
the response satisfies `totalItems = length of the filtered set`,
`totalPages = ceil(totalItems/limit)`, `hasMore = (page < totalPages)`, and
`data.length = min(limit, totalItems - (page-1)*limit)` clamped at 0 (the
subtraction is ℕ-truncated); in particular a page index beyond `totalPages`
yields an empty `data` array with `hasMore = false`, not an error.  All five
list routes delegate to this shared pagination block. -/
theorem list_pagination_spec {α : Type} (filtered : List α) (page limit : Nat)
    (hpage : 1 ≤ page) (hlimit : 1 ≤ limit) :
    (paginateList filtered page limit).pagination.totalItems
      = filtered.length ∧
    (((paginateList filtered page limit).pagination.totalPages : Int)
      = ⌈(filtered.length : ℚ) / (limit : ℚ)⌉) ∧
    ((paginateList filtered page limit).pagination.hasMore = true ↔
      page < (paginateList filtered page limit).pagination.totalPages) ∧
    (paginateList filtered page limit).data.length
      = min limit (filtered.length - (page - 1) * limit) ∧
    ((paginateList filtered page limit).pagination.totalPages < page →
      (paginateList filtered page limit).data = [] ∧
      (paginateList filtered page limit).pagination.hasMore = false) := by
  refine ⟨rfl, natCeilDiv_eq_ceil filtered.length limit hlimit,
    by simp [paginateList], ?_, ?_⟩
  · simp [paginateList]
  · intro hbeyond
    simp only [paginateList] at hbeyond ⊢
    have h1 : filtered.length ≤
        ((filtered.length + limit - 1) / limit) * limit :=
      length_le_totalPages_mul filtered.length limit hlimit
    have h2 : ((filtered.length + limit - 1) / limit) * limit
        ≤ (page - 1) * limit :=
      Nat.mul_le_mul_right _ (by omega)
    constructor
    · have hnil : filtered.drop ((page - 1) * limit) = [] :=
        List.drop_eq_nil_of_le (by omega)
      simp [hnil]
    · simp only [decide_eq_false_iff_not]
      omega

/-- Witness for C1 at a concrete input: 5 items, page 2, limit 2. -/
theorem list_pagination_spec_witness :
    1 ≤ 2 ∧ 1 ≤ 2 ∧
    ((paginateList [10, 20, 30, 40, 50] 2 2).pagination.totalItems
        = [10, 20, 30, 40, 50].length ∧
      (((paginateList [10, 20, 30, 40, 50] 2 2).pagination.totalPages : Int)
        = ⌈(([10, 20, 30, 40, 50].length : Nat) : ℚ) / ((2 : Nat) : ℚ)⌉) ∧
      ((paginateList [10, 20, 30, 40, 50] 2 2).pagination.hasMore = true ↔
        2 < (paginateList [10, 20, 30, 40, 50] 2 2).pagination.totalPages) ∧
      (paginateList [10, 20, 30, 40, 50] 2 2).data.length
        = min 2 ([10, 20, 30, 40, 50].length - (2 - 1) * 2) ∧
      ((paginateList [10, 20, 30, 40, 50] 2 2).pagination.totalPages < 2 →
        (paginateList [10, 20, 30, 40, 50] 2 2).data = [] ∧
        (paginateList [10, 20, 30, 40, 50] 2 2).pagination.hasMore
          = false)) :=
  ⟨by decide, by decide,
    list_pagination_spec [10, 20, 30, 40, 50] 2 2 (by decide) (by decide)⟩

/-! ### The client query builder (client/src/api/index.ts, buildQueryString) -/

/-- A value passed to `buildQueryString`: `string | number | null | undefined`
(the numbers used by the client are integral page/limit values). -/
inductive QueryValue where
  | str (s : String)
  | num (n : Int)
  | null
  | undefined
deriving DecidableEq, Repr

/-- JS `String(value)` for the values above. -/
def jsStringOf : QueryValue → String
  | .str s => s
  | .num n => toString n
  | .null => "null"
  | .undefined => "undefined"

/-- `buildQueryString`: appends `key=String(value)` for every entry whose
value is not `undefined`, not `null` and not `''`. -/
def buildQueryString (params : List (String × QueryValue)) :
    List (String × String) :=
  params.foldl (fun acc kv =>
    match kv.2 with
    | .undefined => acc
    | .null => acc
    | .str s => if s = "" then acc else acc ++ [(kv.1, s)]
    | .num n => acc ++ [(kv.1, toString n)]) []

/-- The predicate `value !== undefined && value !== null && value !== ''`. -/
def keepParam (v : QueryValue) : Bool :=
  !(v == .undefined) && !(v == .null) && !(v == .str "")

theorem buildQueryString_foldl_aux (params : List (String × QueryValue))
    (acc : List (String × String)) :
    params.foldl (fun acc kv =>
      match kv.2 with
      | .undefined => acc
      | .null => acc
      | .str s => if s = "" then acc else acc ++ [(kv.1, s)]
      | .num n => acc ++ [(kv.1, toString n)]) acc
    = acc ++ (params.filter (fun kv => keepParam kv.2)).map
        (fun kv => (kv.1, jsStringOf kv.2)) := by
  induction params generalizing acc with
  | nil => simp
  | cons kv params ih =>
    rcases kv with ⟨k, v⟩
    cases v with
    | str s =>
      by_cases hs : s = ""
      · subst hs
        simp [List.foldl_cons, ih, keepParam]
      · simp [List.foldl_cons, ih, keepParam, hs, jsStringOf]
    | num n => simp [List.foldl_cons, ih, keepParam, jsStringOf]
    | null => simp [List.foldl_cons, ih, keepParam]
    | undefined => simp [List.foldl_cons, ih, keepParam]

/-- C3: For every list endpoint and every filter parameter — nodes
(status, nodeType, region), stakers (minStake, maxStake), health records
(dataType, deviceType, validationStatus, userAddress, startDate, endDate)
and transactions (txType, status, address, startDate, endDate); the epochs
list route takes no filter parameter — a request carrying the parameter
with the empty-string value returns exactly the same response (data and
pagination metadata) as a request omitting the parameter entirely: the
guards `if (param) ...` treat `''` as falsy.  And the client query builder
emits exactly the parameters whose values are not `undefined`, not `null`
and not `''` (so it never sends `''` as a constraint). -/
theorem empty_filter_equivalence :
    (∀ (nodes : List Node) (q : NodesQuery),
      nodesHandler nodes { q with status := some "" }
        = nodesHandler nodes { q with status := none } ∧
      nodesHandler nodes { q with nodeType := some "" }
        = nodesHandler nodes { q with nodeType := none } ∧
      nodesHandler nodes { q with region := some "" }
        = nodesHandler nodes { q with region := none }) ∧
    (∀ (stakers : List Staker) (q : StakersQuery),
      stakersHandler stakers { q with minStake := some "" }
        = stakersHandler stakers { q with minStake := none } ∧
      stakersHandler stakers { q with maxStake := some "" }
        = stakersHandler stakers { q with maxStake := none }) ∧
    (∀ (records : List HealthRecord) (q : HealthQuery),
      healthRecordsHandler records { q with dataType := some "" }
        = healthRecordsHandler records { q with dataType := none } ∧
      healthRecordsHandler records { q with deviceType := some "" }
        = healthRecordsHandler records { q with deviceType := none } ∧
      healthRecordsHandler records { q with validationStatus := some "" }
        = healthRecordsHandler records { q with validationStatus := none } ∧
      healthRecordsHandler records { q with userAddress := some "" }
        = healthRecordsHandler records { q with userAddress := none } ∧
      healthRecordsHandler records { q with startDate := some "" }
        = healthRecordsHandler records { q with startDate := none } ∧
      healthRecordsHandler records { q with endDate := some "" }
        = healthRecordsHandler records { q with endDate := none }) ∧
    (∀ (txs : List Transaction) (q : TransactionsQuery),
      transactionsHandler txs { q with txType := some "" }
        = transactionsHandler txs { q with txType := none } ∧
      transactionsHandler txs { q with status := some "" }
        = transactionsHandler txs { q with status := none } ∧
      transactionsHandler txs { q with address := some "" }
        = transactionsHandler txs { q with address := none } ∧
      transactionsHandler txs { q with startDate := some "" }
        = transactionsHandler txs { q with startDate := none } ∧
      transactionsHandler txs { q with endDate := some "" }
        = transactionsHandler txs { q with endDate := none }) ∧
    (∀ params : List (String × QueryValue),
      buildQueryString params
        = (params.filter (fun kv => keepParam kv.2)).map
            (fun kv => (kv.1, jsStringOf kv.2))) :=
  ⟨fun _ _ => ⟨rfl, rfl, rfl⟩,
   fun _ _ => ⟨rfl, rfl⟩,
   fun _ _ => ⟨rfl, rfl, rfl, rfl, rfl, rfl⟩,
   fun _ _ => ⟨rfl, rfl, rfl, rfl, rfl⟩,
   fun params => buildQueryString_foldl_aux params []⟩

/-! ### Permissive numeric-parameter parsing (all list routes) -/

/-- C4: For every list endpoint and every raw `page` and `limit` query value
(including absent, non-numeric, zero, negative, or oversized values), the
effective page is `max(1, parseInt(page) || 1)` and the effective limit is
clamped into `[1, 100]` with default 20; malformed numeric parameters never
cause an error response — the handlers are total and the parse failure
collapses each field to its default. -/
theorem param_clamping_spec (rawPage rawLimit : Option String) :
    clampPage rawPage = max 1 (jsOrDefault (parseIntJS rawPage) 1) ∧
    1 ≤ clampPage rawPage ∧
    1 ≤ clampLimit rawLimit ∧
    clampLimit rawLimit ≤ 100 ∧
    clampPage none = 1 ∧
    clampLimit none = 20 ∧
    (parseIntJS rawPage = none → clampPage rawPage = 1) ∧
    (parseIntJS rawLimit = none → clampLimit rawLimit = 20) ∧
    (∀ (nodes : List Node) (q : NodesQuery),
      1 ≤ (nodesHandler nodes q).pagination.page ∧
      1 ≤ (nodesHandler nodes q).pagination.limit ∧
      (nodesHandler nodes q).pagination.limit ≤ 100) := by
  have hp : 1 ≤ clampPage rawPage := le_max_left _ _
  have hl1 : 1 ≤ clampLimit rawLimit :=
    le_min (by norm_num) (le_max_left _ _)
  have hl2 : clampLimit rawLimit ≤ 100 := min_le_left _ _
  refine ⟨rfl, hp, hl1, hl2, rfl, rfl, ?_, ?_, ?_⟩
  · intro h
    simp [clampPage, h, jsOrDefault]
  · intro h
    simp [clampLimit, h, jsOrDefault]
  · intro nodes q
    have hp' : 1 ≤ clampPage q.page := le_max_left _ _
    have hl1' : 1 ≤ clampLimit q.limit :=
      le_min (by norm_num) (le_max_left _ _)
    have hl2' : clampLimit q.limit ≤ 100 := min_le_left _ _
    refine ⟨?_, ?_, ?_⟩ <;>
      simp only [nodesHandler, paginateList] <;> omega

/-- Witness for C4: the malformed values `page="abc"`, `limit="xyz"`
collapse to the defaults. -/
theorem param_clamping_spec_witness :
    parseIntJS (some "abc") = none ∧ clampPage (some "abc") = 1 ∧
    parseIntJS (some "xyz") = none ∧ clampLimit (some "xyz") = 20 :=
  ⟨by decide,
   (param_clamping_spec (some "abc") (some "xyz")).2.2.2.2.2.2.1 (by decide),
   by decide,
   (param_clamping_spec (some "abc") (some "xyz")).2.2.2.2.2.2.2.1 (by decide)⟩

/-! ### Single-record lookup routes -/

/-- A lookup response: the 200 body, or a 404 `{error}` payload. -/
inductive LookupResult (α : Type) where
  | ok (body : α)
  | notFound (error : String)
deriving DecidableEq, Repr

/-- `GET /api/nodes/:nodeId`. -/
def nodeLookup (nodes : List Node) (id : String) : LookupResult Node :=
  match nodes.find? (fun n => n.nodeId == id) with
  | none => .notFound "Node not found"
  | some n => .ok n

/-- The projection of the delegated node embedded in a staker response. -/
structure DelegatedNodeInfo where
  nodeId : String
  nodeType : String
  status : String
  uptime : String
deriving DecidableEq, Repr

/-- `{...staker, delegatedNode}`. -/
structure StakerDetail where
  staker : Staker
  delegatedNode : Option DelegatedNodeInfo
deriving DecidableEq, Repr

/-- The `delegatedNode` enrichment: `if (staker.delegatedTo)` is a string
truthiness test, then `nodes.find(...)` and a field projection (an absent
node leaves the field undefined, modelled as `none`). -/
def delegatedInfo (nodes : List Node) (staker : Staker) :
    Option DelegatedNodeInfo :=
  if staker.delegatedTo = "" then none
  else
    match nodes.find? (fun n => n.nodeId == staker.delegatedTo) with
    | some n =>
      some { nodeId := n.nodeId
             nodeType := n.nodeType
             status := n.status
             uptime := n.uptime }
    | none => none

/-- `GET /api/stakers/:stakerId`. -/
def stakerLookup (stakers : List Staker) (nodes : List Node) (id : String) :
    LookupResult StakerDetail :=
  match stakers.find? (fun s => s.stakerId == id) with
  | none => .notFound "Staker not found"
  | some staker =>
    .ok { staker := staker, delegatedNode := delegatedInfo nodes staker }

/-- `GET /api/health-records/:recordId`. -/
def healthRecordLookup (healthRecords : List HealthRecord) (id : String) :
    LookupResult HealthRecord :=
  match healthRecords.find? (fun r => r.recordId == id) with
  | none => .notFound "Health record not found"
  | some r => .ok r

/-- The detail projection `{...epoch, nodeRewards: nodeRewards.slice(0, 50)}`. -/
def epochDetail (e : Epoch) : Epoch :=
  { e with nodeRewards := e.nodeRewards.take 50 }

/-- `GET /api/epochs/:epochNumber` — the path parameter goes through
`parseInt`, and a `NaN` result matches no epoch. -/
def epochLookup (epochs : List Epoch) (param : String) : LookupResult Epoch :=
  let epochNum := parseIntJS (some param)
  match epochs.find? (fun e => epochNum == some e.epochNumber) with
  | none => .notFound "Epoch not found"
  | some e => .ok (epochDetail e)

/-- `GET /api/transactions/:txHash`. -/
def transactionLookup (transactions : List Transaction) (hash : String) :
    LookupResult Transaction :=
  match transactions.find? (fun t => t.txHash == hash) with
  | none => .notFound "Transaction not found"
  | some t => .ok t

/-- C7: for every single-record lookup endpoint, an id matching no stored
record yields a 404 response with the endpoint's error string, and a
matching id yields the (endpoint-projected) record with status 200. -/
theorem lookup_404_spec :
    (∀ (nodes : List Node) (id : String),
      ((∀ n ∈ nodes, n.nodeId ≠ id) →
        nodeLookup nodes id = .notFound "Node not found") ∧
      ((∃ n ∈ nodes, n.nodeId = id) →
        ∃ n, nodeLookup nodes id = .ok n ∧ n ∈ nodes ∧ n.nodeId = id)) ∧
    (∀ (stakers : List Staker) (nodes : List Node) (id : String),
      ((∀ s ∈ stakers, s.stakerId ≠ id) →
        stakerLookup stakers nodes id = .notFound "Staker not found") ∧
      ((∃ s ∈ stakers, s.stakerId = id) →
        ∃ d, stakerLookup stakers nodes id = .ok d ∧
          d.staker ∈ stakers ∧ d.staker.stakerId = id)) ∧
    (∀ (healthRecords : List HealthRecord) (id : String),
      ((∀ r ∈ healthRecords, r.recordId ≠ id) →
        healthRecordLookup healthRecords id
          = .notFound "Health record not found") ∧
      ((∃ r ∈ healthRecords, r.recordId = id) →
        ∃ r, healthRecordLookup healthRecords id = .ok r ∧
          r ∈ healthRecords ∧ r.recordId = id)) ∧
    (∀ (epochs : List Epoch) (param : String),
      ((∀ e ∈ epochs, parseIntJS (some param) ≠ some e.epochNumber) →
        epochLookup epochs param = .notFound "Epoch not found") ∧
      ((∃ e ∈ epochs, parseIntJS (some param) = some e.epochNumber) →
        ∃ e, epochLookup epochs param = .ok (epochDetail e) ∧
          e ∈ epochs ∧ parseIntJS (some param) = some e.epochNumber)) ∧
    (∀ (transactions : List Transaction) (hash : String),
      ((∀ t ∈ transactions, t.txHash ≠ hash) →
        transactionLookup transactions hash
          = .notFound "Transaction not found") ∧
      ((∃ t ∈ transactions, t.txHash = hash) →
        ∃ t, transactionLookup transactions hash = .ok t ∧
          t ∈ transactions ∧ t.txHash = hash)) := by
  refine ⟨fun nodes id => ⟨?_, ?_⟩, fun stakers nodes id => ⟨?_, ?_⟩,
    fun records id => ⟨?_, ?_⟩, fun epochs param => ⟨?_, ?_⟩,
    fun txs hash => ⟨?_, ?_⟩⟩
  · intro h
    have hf : nodes.find? (fun n => n.nodeId == id) = none :=
      List.find?_eq_none.mpr (fun x hx => by simpa using h x hx)
    simp [nodeLookup, hf]
  · rintro ⟨n, hn, hid⟩
    have hsome : (nodes.find? (fun x => x.nodeId == id)).isSome :=
      List.find?_isSome.mpr ⟨n, hn, by simpa using hid⟩
    obtain ⟨m, hm⟩ := Option.isSome_iff_exists.mp hsome
    exact ⟨m, by simp [nodeLookup, hm], List.mem_of_find?_eq_some hm,
      by simpa using List.find?_some hm⟩
  · intro h
    have hf : stakers.find? (fun s => s.stakerId == id) = none :=
      List.find?_eq_none.mpr (fun x hx => by simpa using h x hx)
    simp [stakerLookup, hf]
  · rintro ⟨s, hs, hid⟩
    have hsome : (stakers.find? (fun x => x.stakerId == id)).isSome :=
      List.find?_isSome.mpr ⟨s, hs, by simpa using hid⟩
    obtain ⟨m, hm⟩ := Option.isSome_iff_exists.mp hsome
    exact ⟨{ staker := m, delegatedNode := delegatedInfo nodes m },
      by simp [stakerLookup, hm], List.mem_of_find?_eq_some hm,
      by simpa using List.find?_some hm⟩
  · intro h
    have hf : records.find? (fun r => r.recordId == id) = none :=
      List.find?_eq_none.mpr (fun x hx => by simpa using h x hx)
    simp [healthRecordLookup, hf]
  · rintro ⟨r, hr, hid⟩
    have hsome : (records.find? (fun x => x.recordId == id)).isSome :=
      List.find?_isSome.mpr ⟨r, hr, by simpa using hid⟩
    obtain ⟨m, hm⟩ := Option.isSome_iff_exists.mp hsome
    exact ⟨m, by simp [healthRecordLookup, hm], List.mem_of_find?_eq_some hm,
      by simpa using List.find?_some hm⟩
  · intro h
    have hf : epochs.find?
        (fun e => parseIntJS (some param) == some e.epochNumber) = none :=
      List.find?_eq_none.mpr (fun x hx => by simpa using h x hx)
    simp [epochLookup, hf]
  · rintro ⟨e, he, hnum⟩
    have hsome : (epochs.find?
        (fun x => parseIntJS (some param) == some x.epochNumber)).isSome :=
      List.find?_isSome.mpr ⟨e, he, by simpa using hnum⟩
    obtain ⟨m, hm⟩ := Option.isSome_iff_exists.mp hsome
    exact ⟨m, by simp [epochLookup, hm], List.mem_of_find?_eq_some hm,
      by simpa using List.find?_some hm⟩
  · intro h
    have hf : txs.find? (fun t => t.txHash == hash) = none :=
      List.find?_eq_none.mpr (fun x hx => by simpa using h x hx)
    simp [transactionLookup, hf]
  · rintro ⟨t, ht, hid⟩
    have hsome : (txs.find? (fun x => x.txHash == hash)).isSome :=
      List.find?_isSome.mpr ⟨t, ht, by simpa using hid⟩
    obtain ⟨m, hm⟩ := Option.isSome_iff_exists.mp hsome
    exact ⟨m, by simp [transactionLookup, hm], List.mem_of_find?_eq_some hm,
      by simpa using List.find?_some hm⟩

/-! ### Concrete sample records (witness inputs) -/

def sampleNode : Node :=
  { nodeId := "NODE-000001"
    operatorAddress := "0xaa11"
    nodeType := "VALIDATOR"
    region := "NA-EAST"
    status := "ACTIVE"
    stakedAmount := "50000.000000"
    totalRewardsEarned := "1000.000000"
    uptime := "95.5000"
    validationsPerformed := 100000
    validationsSuccessful := 95000
    validationsFailed := 5000
    slashingEvents := 0
    registeredAt := 0
    lastHeartbeat := 0 }

def sampleEpoch : Epoch :=
  { epochNumber := 1
    startTime := 0
    endTime := 604800000
    totalRewardsPool := "100000.000000"
    totalValidations := 60000
    activeNodes := 80
    activeStakers := 400
    nodeRewards :=
      [ { nodeId := "NODE-000001", reward := "500.000000", validations := 2000 }
      , { nodeId := "NODE-000002", reward := "400.000000", validations := 1800 }
      , { nodeId := "NODE-000003", reward := "300.000000", validations := 1500 } ] }

def sampleTx : Transaction :=
  { txHash := "0xdeadbeef"
    txType := "TRANSFER"
    fromAddr := "0x01"
    toAddr := "0x02"
    amount := "100.000000"
    gasUsed := 21000
    gasPrice := 50
    timestamp := 0
    blockNumber := 18000000
    status := "CONFIRMED"
    nonce := 1 }

/-- Witness for C7: a missing id yields 404 with the route's error body, a
present id yields the record. -/
theorem lookup_404_spec_witness :
    nodeLookup [sampleNode] "NODE-999999" = .notFound "Node not found" ∧
    (∃ n, nodeLookup [sampleNode] "NODE-000001" = .ok n ∧
      n ∈ [sampleNode] ∧ n.nodeId = "NODE-000001") ∧
    epochLookup [sampleEpoch] "999" = .notFound "Epoch not found" ∧
    transactionLookup [sampleTx] "0x00" = .notFound "Transaction not found" :=
  ⟨(lookup_404_spec.1 [sampleNode] "NODE-999999").1 (by decide),
   (lookup_404_spec.1 [sampleNode] "NODE-000001").2
     ⟨sampleNode, by decide, by decide⟩,
   (lookup_404_spec.2.2.2.1 [sampleEpoch] "999").1 (by decide),
   (lookup_404_spec.2.2.2.2 [sampleTx] "0x00").1 (by decide)⟩

/-- C10: the epoch API only ever exposes a bounded prefix of an epoch's
`nodeRewards`: list items are the `simplifyEpoch` projection (no
`nodeRewards` field, `topNodeRewardsCount` equal to its length), and the
detail route returns `nodeRewards` truncated to the first 50 entries with
every other field equal to the stored epoch's. -/
theorem epoch_projection_spec :
    (∀ (epochs : List Epoch) (q : EpochsQuery),
      ∀ item ∈ (epochsListHandler epochs q).data,
        ∃ e ∈ epochs, item = simplifyEpoch e ∧
          item.topNodeRewardsCount = e.nodeRewards.length) ∧
    (∀ (epochs : List Epoch) (param : String) (res : Epoch),
      epochLookup epochs param = .ok res →
        ∃ e ∈ epochs,
          res.nodeRewards = e.nodeRewards.take 50 ∧
          res.nodeRewards.length ≤ 50 ∧
          res.epochNumber = e.epochNumber ∧ res.startTime = e.startTime ∧
          res.endTime = e.endTime ∧
          res.totalRewardsPool = e.totalRewardsPool ∧
          res.totalValidations = e.totalValidations ∧
          res.activeNodes = e.activeNodes ∧
          res.activeStakers = e.activeStakers) := by
  constructor
  · intro epochs q item hitem
    simp only [epochsListHandler] at hitem
    obtain ⟨e, he, rfl⟩ := List.mem_map.mp hitem
    have he1 : e ∈ sortWith
        (fun a b => decide (epochCompare (q.sortOrder.getD "desc") a b ≤ 0))
        epochs :=
      List.mem_of_mem_drop (List.mem_of_mem_take he)
    exact ⟨e, mem_sortWith he1, rfl, rfl⟩
  · intro epochs param res h
    rcases hf : epochs.find?
        (fun e => parseIntJS (some param) == some e.epochNumber) with _ | e
    · simp [epochLookup, hf] at h
    · simp only [epochLookup, hf] at h
      cases h
      exact ⟨e, List.mem_of_find?_eq_some hf, rfl, List.length_take_le _ _,
        rfl, rfl, rfl, rfl, rfl, rfl, rfl⟩

/-- Witness for C10 at a one-epoch store. -/
theorem epoch_projection_spec_witness :
    (∃ e ∈ [sampleEpoch], simplifyEpoch sampleEpoch = simplifyEpoch e ∧
      (simplifyEpoch sampleEpoch).topNodeRewardsCount
        = e.nodeRewards.length) ∧
    (∃ e ∈ [sampleEpoch],
      (epochDetail sampleEpoch).nodeRewards = e.nodeRewards.take 50 ∧
      (epochDetail sampleEpoch).nodeRewards.length ≤ 50 ∧
      (epochDetail sampleEpoch).epochNumber = e.epochNumber ∧
      (epochDetail sampleEpoch).startTime = e.startTime ∧
      (epochDetail sampleEpoch).endTime = e.endTime ∧
      (epochDetail sampleEpoch).totalRewardsPool = e.totalRewardsPool ∧
      (epochDetail sampleEpoch).totalValidations = e.totalValidations ∧
      (epochDetail sampleEpoch).activeNodes = e.activeNodes ∧
      (epochDetail sampleEpoch).activeStakers = e.activeStakers) :=
  ⟨epoch_projection_spec.1 [sampleEpoch]
     { page := none, limit := none, sortOrder := none }
     (simplifyEpoch sampleEpoch) (by decide),
   epoch_projection_spec.2 [sampleEpoch] "1" (epochDetail sampleEpoch)
     (by decide)⟩

/-! ### The stored collections and non-mutation (frame property)

The module-level arrays loaded from `data.js` are modelled as a store
threaded through each endpoint: every JS statement that could write is
translated on the store, and each route's only array-producing steps are
the spread copy `[...coll]` (a fresh array) and operations on that copy, so
the store comes back unchanged. -/

structure Store where
  nodes : List Node
  stakers : List Staker
  healthRecords : List HealthRecord
  epochs : List Epoch
  transactions : List Transaction
deriving DecidableEq, Repr

def nodesEndpoint (st : Store) (q : NodesQuery) :
    ListResponse Node × Store :=
  (nodesHandler st.nodes q, st)

def stakersEndpoint (st : Store) (q : StakersQuery) :
    ListResponse Staker × Store :=
  (stakersHandler st.stakers q, st)

def healthRecordsEndpoint (st : Store) (q : HealthQuery) :
    ListResponse HealthRecord × Store :=
  (healthRecordsHandler st.healthRecords q, st)

def epochsEndpoint (st : Store) (q : EpochsQuery) :
    ListResponse SimplifiedEpoch × Store :=
  (epochsListHandler st.epochs q, st)

def transactionsEndpoint (st : Store) (q : TransactionsQuery) :
    ListResponse Transaction × Store :=
  (transactionsHandler st.transactions q, st)

/-- The `recentTxs` projection of `GET /api/transactions/stats` (the one
aggregation that sorts: `[...transactions].sort((a, b) => b.timestamp -
a.timestamp).slice(0, 10).map(...)`). -/
structure RecentTx where
  txHash : String
  txType : String
  amount : String
  timestamp : Int
  status : String
deriving DecidableEq, Repr

def txStatsRecent (transactions : List Transaction) : List RecentTx :=
  ((sortWith (fun a b => decide (b.timestamp - a.timestamp ≤ 0))
      transactions).take 10).map
    (fun tx =>
      { txHash := tx.txHash
        txType := tx.txType
        amount := tx.amount
        timestamp := tx.timestamp
        status := tx.status })

def transactionsStatsEndpoint (st : Store) : List RecentTx × Store :=
  (txStatsRecent st.transactions, st)

/-! ### generator.js: the validations split

    const validationsPerformed = randomInt(10000, 500000);
    const successRate = randomFloat(0.90, 0.99, 4);
    validationsSuccessful: Math.floor(validationsPerformed * successRate),
    validationsFailed: Math.floor(validationsPerformed * (1 - successRate)),

JS numbers are modelled as exact rationals; on these magnitudes (an integer
up to 5·10^5 times a 4-decimal rate) double rounding cannot move either
product across an integer boundary in a way that changes the properties
below. -/

def genValidationSplit (validationsPerformed : Nat) (successRate : ℚ) :
    Int × Int :=
  (⌊(validationsPerformed : ℚ) * successRate⌋,
   ⌊(validationsPerformed : ℚ) * (1 - successRate)⌋)

/-- C9: for every generated node, with per-node success rate `r ∈
[0.90, 0.99]`, `validationsSuccessful + validationsFailed` equals either
`validationsPerformed` or `validationsPerformed - 1`, and both counts are
non-negative and at most `validationsPerformed`. -/
theorem validation_split_spec (vp : Nat) (r : ℚ)
    (h1 : 9/10 ≤ r) (h2 : r ≤ 99/100) :
    ((genValidationSplit vp r).1 + (genValidationSplit vp r).2 = (vp : Int) ∨
      (genValidationSplit vp r).1 + (genValidationSplit vp r).2
        = (vp : Int) - 1) ∧
    0 ≤ (genValidationSplit vp r).1 ∧
    (genValidationSplit vp r).1 ≤ (vp : Int) ∧
    0 ≤ (genValidationSplit vp r).2 ∧
    (genValidationSplit vp r).2 ≤ (vp : Int) := by
  have hr0 : (0 : ℚ) ≤ r := by linarith
  have hr1 : r ≤ 1 := by linarith
  have hvp0 : (0 : ℚ) ≤ (vp : ℚ) := Nat.cast_nonneg vp
  have hx0 : (0 : ℚ) ≤ (vp : ℚ) * r := mul_nonneg hvp0 hr0
  have hx1 : (vp : ℚ) * r ≤ (vp : ℚ) := mul_le_of_le_one_right hvp0 hr1
  have hy0 : (0 : ℚ) ≤ (vp : ℚ) * (1 - r) := mul_nonneg hvp0 (by linarith)
  have hy1 : (vp : ℚ) * (1 - r) ≤ (vp : ℚ) :=
    mul_le_of_le_one_right hvp0 (by linarith)
  have hsplit : (vp : ℚ) * (1 - r) = ((vp : Int) : ℚ) + -((vp : ℚ) * r) := by
    push_cast
    ring
  have hfloor2 : (genValidationSplit vp r).2
      = (vp : Int) + ⌊-((vp : ℚ) * r)⌋ := by
    simp only [genValidationSplit]
    rw [hsplit, Int.floor_int_add]
  have hneg : ⌊-((vp : ℚ) * r)⌋ = -⌈(vp : ℚ) * r⌉ := Int.floor_neg
  have hcl : ⌈(vp : ℚ) * r⌉ ≤ ⌊(vp : ℚ) * r⌋ + 1 :=
    Int.ceil_le_floor_add_one _
  have hlc : ⌊(vp : ℚ) * r⌋ ≤ ⌈(vp : ℚ) * r⌉ := Int.floor_le_ceil _
  refine ⟨?_, ?_, ?_, ?_, ?_⟩
  · rw [hfloor2, hneg]
    simp only [genValidationSplit]
    omega
  · exact Int.floor_nonneg.mpr hx0
  · calc ⌊(vp : ℚ) * r⌋ ≤ ⌊(vp : ℚ)⌋ := Int.floor_le_floor hx1
      _ = (vp : Int) := Int.floor_natCast vp
  · exact Int.floor_nonneg.mpr hy0
  · calc ⌊(vp : ℚ) * (1 - r)⌋ ≤ ⌊(vp : ℚ)⌋ := Int.floor_le_floor hy1
      _ = (vp : Int) := Int.floor_natCast vp

/-- Witness for C9 at `validationsPerformed = 10000`, `r = 0.9417`. -/
theorem validation_split_spec_witness :
    (9/10 : ℚ) ≤ 9417/10000 ∧ ((9417 : ℚ)/10000) ≤ 99/100 ∧
    (((genValidationSplit 10000 (9417/10000)).1
        + (genValidationSplit 10000 (9417/10000)).2 = (10000 : Int) ∨
      (genValidationSplit 10000 (9417/10000)).1
        + (genValidationSplit 10000 (9417/10000)).2 = (10000 : Int) - 1) ∧
    0 ≤ (genValidationSplit 10000 (9417/10000)).1 ∧
    (genValidationSplit 10000 (9417/10000)).1 ≤ (10000 : Int) ∧
    0 ≤ (genValidationSplit 10000 (9417/10000)).2 ∧
    (genValidationSplit 10000 (9417/10000)).2 ≤ (10000 : Int)) :=
  ⟨by norm_num, by norm_num,
   validation_split_spec 10000 (9417/10000) (by norm_num) (by norm_num)⟩

/-! ### Numeric-string sorting -/

/-- Elements of a conditionally filtered list come from the base list. -/
theorem mem_of_ite_filter {c : Bool} {p : α → Bool} {l : List α} {x : α}
    (h : x ∈ (if c then l.filter p else l)) : x ∈ l := by
  cases c
  · simpa using h
  · exact (List.mem_filter.mp (by simpa using h)).1

/-- On two numeric-looking strings the shared comparator (descending) keeps
`a` before `b` exactly when the parsed value of `b` is at most that of `a`. -/
theorem jsSortComparator_desc_le_iff (sa sb : String) (qa qb : ℚ)
    (ha : parseFloatQ sa = some qa) (hb : parseFloatQ sb = some qb) :
    jsSortComparator "desc" (.str sa) (.str sb) ≤ 0 ↔ qb ≤ qa := by
  simp only [jsSortComparator, ha, hb, parseFloatJS, Option.isSome_some,
    if_true, jsLt, toNumberJS]
  rw [if_neg (by decide : ¬(("desc" : String) = "asc"))]
  by_cases h : qa < qb
  · simp [h, not_le.mpr h]
  · simp [h, not_lt.mp h]

/-- The descending sort of the stakers/nodes/transactions routes, keyed on a
field whose values are numeric-looking strings, is pairwise non-increasing
in the parsed values. -/
theorem parsed_desc_sort_pairwise {α : Type} (amount : α → String)
    (getF : α → String → JSVal) (key : String)
    (hget : ∀ x, getF x key = .str (amount x))
    (l : List α)
    (hl : ∀ x ∈ l, (parseFloatQ (amount x)).isSome = true) :
    (sortWith (fun a b =>
        decide (jsSortComparator "desc" (getF a key) (getF b key) ≤ 0))
      l).Pairwise
      (fun a b => (parseFloatQ (amount b)).getD 0
        ≤ (parseFloatQ (amount a)).getD 0) := by
  set le := fun a b =>
    decide (jsSortComparator "desc" (getF a key) (getF b key) ≤ 0) with hle
  set P := fun x => (parseFloatQ (amount x)).isSome = true with hP
  have hiff : ∀ ⦃a b⦄, P a → P b →
      (le a b = true ↔ (parseFloatQ (amount b)).getD 0
        ≤ (parseFloatQ (amount a)).getD 0) := by
    intro a b hpa hpb
    obtain ⟨qa, hqa⟩ := Option.isSome_iff_exists.mp hpa
    obtain ⟨qb, hqb⟩ := Option.isSome_iff_exists.mp hpb
    rw [hle]
    simp only [hget, decide_eq_true_eq]
    rw [jsSortComparator_desc_le_iff (amount a) (amount b) qa qb hqa hqb,
      hqa, hqb]
    simp
  have htot : ∀ ⦃a b⦄, P a → P b → le a b = true ∨ le b a = true := by
    intro a b hpa hpb
    rcases le_total ((parseFloatQ (amount b)).getD 0)
        ((parseFloatQ (amount a)).getD 0) with h | h
    · exact Or.inl ((hiff hpa hpb).mpr h)
    · exact Or.inr ((hiff hpb hpa).mpr h)
  have htrans : ∀ ⦃a b c⦄, P a → P b → P c →
      le a b = true → le b c = true → le a c = true := by
    intro a b c hpa hpb hpc hab hbc
    exact (hiff hpa hpc).mpr
      (((hiff hpb hpc).mp hbc).trans ((hiff hpa hpb).mp hab))
  have hpw := pairwise_sortWith htot htrans hl
  exact hpw.imp_of_mem (fun {a b} hma hmb hr =>
    (hiff (hl a (mem_sortWith hma)) (hl b (mem_sortWith hmb))).mp hr)

def witStakerA : Staker :=
  { stakerId := "STAKER-0000001"
    walletAddress := "0xb1"
    stakedAmount := "900.000000"
    pendingRewards := "10.000000"
    claimedRewards := "100.000000"
    lockPeriod := 30
    unlockTime := 0
    stakingMultiplier := 1 + (30 : ℚ)/365
    delegatedTo := "NODE-000001" }

def witStakerB : Staker :=
  { stakerId := "STAKER-0000002"
    walletAddress := "0xb2"
    stakedAmount := "2500.000000"
    pendingRewards := "20.000000"
    claimedRewards := "200.000000"
    lockPeriod := 90
    unlockTime := 0
    stakingMultiplier := 1 + (90 : ℚ)/365
    delegatedTo := "NODE-000001" }

def witStakersQuery : StakersQuery :=
  { page := none, limit := none, minStake := none, maxStake := none,
    sortBy := some "stakedAmount", sortOrder := some "desc" }

def witNodeB : Node :=
  { nodeId := "NODE-000002"
    operatorAddress := "0xaa22"
    nodeType := "LIGHT"
    region := "LATAM"
    status := "ACTIVE"
    stakedAmount := "1000.000000"
    totalRewardsEarned := "200.000000"
    uptime := "80.0000"
    validationsPerformed := 20000
    validationsSuccessful := 19000
    validationsFailed := 1000
    slashingEvents := 1
    registeredAt := 0
    lastHeartbeat := 0 }

def witNodesQuery : NodesQuery :=
  { page := none, limit := none, status := none, nodeType := none,
    region := none, sortBy := some "stakedAmount",
    sortOrder := some "desc" }

def witTxB : Transaction :=
  { txHash := "0xfeedface"
    txType := "STAKE"
    fromAddr := "0x03"
    toAddr := "0x04"
    amount := "50.000000"
    gasUsed := 30000
    gasPrice := 40
    timestamp := 5
    blockNumber := 18000001
    status := "PENDING"
    nonce := 2 }

def witTxQuery : TransactionsQuery :=
  { page := none, limit := none, txType := none, status := none,
    address := none, startDate := none, endDate := none,
    sortBy := some "amount", sortOrder := some "desc" }

/-- C2 (amended): on the list endpoints whose comparator carries the
numeric-string branch (stakers, nodes, transactions), sorting by *any*
sortable field whose stored values are numeric-looking strings — the field
is given by its query key and the accessor `f` it dereferences to — with
`sortOrder=desc` yields a sequence that is non-increasing when each value
is parsed as a float.  (The health-records comparator has no such branch;
see the counterexample.) -/
theorem numeric_sort_desc_spec :
    (∀ (stakers : List Staker) (q : StakersQuery) (key : String)
        (f : Staker → String),
      q.sortBy = some key →
      (∀ s, getStakerField s key = .str (f s)) →
      q.sortOrder.getD "desc" = "desc" →
      (∀ s ∈ stakers, (parseFloatQ (f s)).isSome = true) →
      ((stakersHandler stakers q).data).Pairwise
        (fun a b => (parseFloatQ (f b)).getD 0
          ≤ (parseFloatQ (f a)).getD 0)) ∧
    (∀ (nodes : List Node) (q : NodesQuery) (key : String)
        (f : Node → String),
      q.sortBy = some key →
      (∀ n, getNodeField n key = .str (f n)) →
      q.sortOrder.getD "desc" = "desc" →
      (∀ n ∈ nodes, (parseFloatQ (f n)).isSome = true) →
      ((nodesHandler nodes q).data).Pairwise
        (fun a b => (parseFloatQ (f b)).getD 0
          ≤ (parseFloatQ (f a)).getD 0)) ∧
    (∀ (txs : List Transaction) (q : TransactionsQuery) (key : String)
        (f : Transaction → String),
      q.sortBy = some key →
      (∀ t, getTransactionField t key = .str (f t)) →
      q.sortOrder.getD "desc" = "desc" →
      (∀ t ∈ txs, (parseFloatQ (f t)).isSome = true) →
      ((transactionsHandler txs q).data).Pairwise
        (fun a b => (parseFloatQ (f b)).getD 0
          ≤ (parseFloatQ (f a)).getD 0)) := by
  refine ⟨?_, ?_, ?_⟩
  · intro stakers q key f hsb hget hso hparse
    have hkey : ¬(key = "") := by
      intro h
      subst h
      have := hget witStakerA
      simp [getStakerField] at this
    have hguard : truthyStr (some key) = true := by
      simp [truthyStr, hkey]
    simp only [stakersHandler, paginateList, hsb, hso, Option.getD_some,
      hguard, if_true]
    apply List.Pairwise.sublist
      ((List.take_sublist _ _).trans (List.drop_sublist _ _))
    apply parsed_desc_sort_pairwise f getStakerField key hget
    intro x hx
    exact hparse x (mem_of_ite_filter (mem_of_ite_filter hx))
  · intro nodes q key f hsb hget hso hparse
    have hkey : ¬(key = "") := by
      intro h
      subst h
      have := hget sampleNode
      simp [getNodeField] at this
    have hguard : truthyStr (some key) = true := by
      simp [truthyStr, hkey]
    simp only [nodesHandler, paginateList, hsb, hso, Option.getD_some,
      hguard, if_true]
    apply List.Pairwise.sublist
      ((List.take_sublist _ _).trans (List.drop_sublist _ _))
    apply parsed_desc_sort_pairwise f getNodeField key hget
    intro x hx
    exact hparse x
      (mem_of_ite_filter (mem_of_ite_filter (mem_of_ite_filter hx)))
  · intro txs q key f hsb hget hso hparse
    simp only [transactionsHandler, paginateList, hsb, hso,
      Option.getD_some]
    apply List.Pairwise.sublist
      ((List.take_sublist _ _).trans (List.drop_sublist _ _))
    apply parsed_desc_sort_pairwise f getTransactionField key hget
    intro x hx
    exact hparse x (mem_of_ite_filter (mem_of_ite_filter (mem_of_ite_filter
      (mem_of_ite_filter (mem_of_ite_filter hx)))))

/-- Witness for C2: concrete descending sorts on stakers (stakedAmount),
nodes (stakedAmount) and transactions (amount). -/
theorem numeric_sort_desc_spec_witness :
    ((stakersHandler [witStakerA, witStakerB] witStakersQuery).data).Pairwise
      (fun a b => (parseFloatQ b.stakedAmount).getD 0
        ≤ (parseFloatQ a.stakedAmount).getD 0) ∧
    ((nodesHandler [sampleNode, witNodeB] witNodesQuery).data).Pairwise
      (fun a b => (parseFloatQ b.stakedAmount).getD 0
        ≤ (parseFloatQ a.stakedAmount).getD 0) ∧
    ((transactionsHandler [sampleTx, witTxB] witTxQuery).data).Pairwise
      (fun a b => (parseFloatQ b.amount).getD 0
        ≤ (parseFloatQ a.amount).getD 0) :=
  ⟨numeric_sort_desc_spec.1 [witStakerA, witStakerB] witStakersQuery
     "stakedAmount" Staker.stakedAmount rfl (fun _ => rfl) rfl (by decide),
   numeric_sort_desc_spec.2.1 [sampleNode, witNodeB] witNodesQuery
     "stakedAmount" Node.stakedAmount rfl (fun _ => rfl) rfl (by decide),
   numeric_sort_desc_spec.2.2 [sampleTx, witTxB] witTxQuery
     "amount" Transaction.amount rfl (fun _ => rfl) rfl (by decide)⟩

/-! #### The health-records comparator does not parse numeric strings -/

def cexOxyA : HealthRecord :=
  { recordId := "REC-00000001"
    userAddress := "0x01"
    dataType := "BLOOD_OXYGEN"
    value := .str "92.5"
    unit := "%"
    deviceType := "FITBIT"
    timestamp := 0
    validatedBy := "NODE-000001"
    validationStatus := "VALIDATED"
    rewardEarned := "1.0000" }

def cexOxyB : HealthRecord :=
  { recordId := "REC-00000002"
    userAddress := "0x02"
    dataType := "BLOOD_OXYGEN"
    value := .str "100.0"
    unit := "%"
    deviceType := "FITBIT"
    timestamp := 0
    validatedBy := "NODE-000001"
    validationStatus := "VALIDATED"
    rewardEarned := "1.0000" }

def cexHealthQuery : HealthQuery :=
  { page := none, limit := none, dataType := none, deviceType := none,
    validationStatus := none, userAddress := none, startDate := none,
    endDate := none, sortBy := some "value", sortOrder := some "desc" }

/-- A health record's `value` parsed as a float (the reading the claim
applies to the sorted sequence). -/
def healthValueParsed (r : HealthRecord) : ℚ :=
  match r.value with
  | .str s => (parseFloatQ s).getD 0
  | .num q => q
  | _ => 0

/-- Counterexample to C2 as stated: on the health-records endpoint (whose
comparator lacks the `parseFloat` branch) two `BLOOD_OXYGEN` records with
numeric-looking string values `"92.5"` and `"100.0"`, sorted by `value`
descending, come back in the order `["92.5", "100.0"]` — lexically sorted —
whose parsed floats `92.5 < 100` are *increasing*. -/
theorem numeric_sort_desc_counterexample :
    ¬ ((healthRecordsHandler [cexOxyA, cexOxyB] cexHealthQuery).data.map
        healthValueParsed).Pairwise (fun a b => b ≤ a) := by
  have hdata : (healthRecordsHandler [cexOxyA, cexOxyB] cexHealthQuery).data
      = [cexOxyA, cexOxyB] := by decide
  have hA : healthValueParsed cexOxyA
      = (1 : ℚ) * (((92 : Nat) : ℚ) + ((5 : Nat) : ℚ) / (10 : ℚ) ^ 1) := rfl
  have hB : healthValueParsed cexOxyB
      = (1 : ℚ) * (((100 : Nat) : ℚ) + ((0 : Nat) : ℚ) / (10 : ℚ) ^ 1) := rfl
  intro hpw
  rw [hdata] at hpw
  simp only [List.map_cons, List.map_nil, List.pairwise_cons] at hpw
  have h := hpw.1 (healthValueParsed cexOxyB) (by simp)
  rw [hA, hB] at h
  norm_num at h

/-! ### The enumerated-value discovery endpoints

`[...new Set(coll.map(r => r.field))].sort()` — first-occurrence
deduplication, then the default (lexicographic, code-unit ascending) sort. -/

theorem charEq_of_toNat_eq {a b : Char} (h : a.toNat = b.toNat) : a = b := by
  apply Char.ext
  have hv : a.val.toNat = b.val.toNat := h
  cases hva : a.val
  cases hvb : b.val
  rw [hva, hvb] at hv
  exact congrArg UInt32.mk (BitVec.eq_of_toNat_eq hv)

theorem charsLt_irrefl : ∀ a : List Char, charsLt a a = false
  | [] => rfl
  | c :: cs => by simp [charsLt, charsLt_irrefl cs]

theorem charsLt_trans : ∀ {a b c : List Char},
    charsLt a b = true → charsLt b c = true → charsLt a c = true := by
  intro a
  induction a with
  | nil =>
    intro b c h1 h2
    cases b with
    | nil => exact absurd h1 (by simp [charsLt])
    | cons y ys =>
      cases c with
      | nil => exact absurd h2 (by simp [charsLt])
      | cons z zs => simp [charsLt]
  | cons x xs ih =>
    intro b c h1 h2
    cases b with
    | nil => exact absurd h1 (by simp [charsLt])
    | cons y ys =>
      cases c with
      | nil => exact absurd h2 (by simp [charsLt])
      | cons z zs =>
        simp only [charsLt] at h1 h2 ⊢
        by_cases hxy : x.toNat < y.toNat
        · by_cases hyz : y.toNat < z.toNat
          · rw [if_pos (by omega)]
          · by_cases hzy : z.toNat < y.toNat
            · rw [if_neg hyz, if_pos hzy] at h2
              exact absurd h2 (by simp)
            · rw [if_pos (by omega)]
        · by_cases hyx : y.toNat < x.toNat
          · rw [if_neg hxy, if_pos hyx] at h1
            exact absurd h1 (by simp)
          · rw [if_neg hxy, if_neg hyx] at h1
            by_cases hyz : y.toNat < z.toNat
            · rw [if_pos (by omega)]
            · by_cases hzy : z.toNat < y.toNat
              · rw [if_neg hyz, if_pos hzy] at h2
                exact absurd h2 (by simp)
              · rw [if_neg hyz, if_neg hzy] at h2
                rw [if_neg (by omega), if_neg (by omega)]
                exact ih h1 h2

theorem charsLt_eq_of_not : ∀ {a b : List Char},
    charsLt a b = false → charsLt b a = false → a = b := by
  intro a
  induction a with
  | nil =>
    intro b h1 _
    cases b with
    | nil => rfl
    | cons y ys => exact absurd h1 (by simp [charsLt])
  | cons x xs ih =>
    intro b h1 h2
    cases b with
    | nil => exact absurd h2 (by simp [charsLt])
    | cons y ys =>
      simp only [charsLt] at h1 h2
      by_cases hxy : x.toNat < y.toNat
      · rw [if_pos hxy] at h1
        exact absurd h1 (by simp)
      · by_cases hyx : y.toNat < x.toNat
        · rw [if_pos hyx] at h2
          exact absurd h2 (by simp)
        · rw [if_neg hxy, if_neg hyx] at h1
          rw [if_neg hyx, if_neg hxy] at h2
          have hx : x = y := charEq_of_toNat_eq (by omega)
          rw [hx, ih h1 h2]

theorem jsStrLt_irrefl (s : String) : jsStrLt s s = false :=
  charsLt_irrefl s.data

theorem jsStrLt_trans {a b c : String} (h1 : jsStrLt a b = true)
    (h2 : jsStrLt b c = true) : jsStrLt a c = true :=
  charsLt_trans h1 h2

theorem jsStr_eq_of_not_lt {a b : String} (h1 : jsStrLt a b = false)
    (h2 : jsStrLt b a = false) : a = b := by
  cases a
  cases b
  exact congrArg String.mk (charsLt_eq_of_not h1 h2)

/-- The "keeps ascending order" predicate of the default string sort. -/
def strAscLe (a b : String) : Bool := !(jsStrLt b a)

theorem strAscLe_total (a b : String) :
    strAscLe a b = true ∨ strAscLe b a = true := by
  simp only [strAscLe, Bool.not_eq_true']
  by_cases h1 : jsStrLt b a = true
  · by_cases h2 : jsStrLt a b = true
    · have := jsStrLt_trans h1 h2
      rw [jsStrLt_irrefl] at this
      exact absurd this (by simp)
    · exact Or.inr (by simpa using h2)
  · exact Or.inl (by simpa using h1)

theorem strAscLe_trans {a b c : String} (h1 : strAscLe a b = true)
    (h2 : strAscLe b c = true) : strAscLe a c = true := by
  simp only [strAscLe, Bool.not_eq_true'] at h1 h2 ⊢
  by_contra hca
  have hca' : jsStrLt c a = true := by simpa using hca
  by_cases hab : jsStrLt a b = true
  · have : jsStrLt c b = true := jsStrLt_trans hca' hab
    simp [this] at h2
  · have hba : a = b := jsStr_eq_of_not_lt (by simpa using hab) h1
    subst hba
    simp [hca'] at h2

theorem strAscLe_antisymm {a b : String} (h1 : strAscLe a b = true)
    (h2 : strAscLe b a = true) : a = b := by
  simp only [strAscLe, Bool.not_eq_true'] at h1 h2
  exact jsStr_eq_of_not_lt h2 h1

/-! Membership and duplicate-freeness of the sort and the Set-dedup. -/

theorem mem_insertSorted_iff {le : α → α → Bool} {a x : α} {l : List α} :
    x ∈ insertSorted le a l ↔ x = a ∨ x ∈ l := by
  constructor
  · exact mem_insertSorted
  · intro h
    induction l with
    | nil =>
      rcases h with rfl | h
      · simp [insertSorted]
      · simp at h
    | cons b t ih =>
      simp only [insertSorted]
      by_cases hle : le a b
      · rcases h with h | h <;> simp [hle, h]
      · rcases h with h | h
        · simp [hle, ih (Or.inl h)]
        · rcases List.mem_cons.mp h with h | h
          · simp [hle, h]
          · simp [hle, ih (Or.inr h)]

theorem mem_sortWith_iff {le : α → α → Bool} {x : α} {l : List α} :
    x ∈ sortWith le l ↔ x ∈ l := by
  constructor
  · exact mem_sortWith
  · intro h
    induction l with
    | nil => simp [sortWith] at h
    | cons a t ih =>
      simp only [sortWith, mem_insertSorted_iff]
      rcases List.mem_cons.mp h with h | h
      · exact Or.inl h
      · exact Or.inr (ih h)

theorem nodup_insertSorted {le : α → α → Bool} {a : α} {l : List α}
    (ha : a ∉ l) (hl : l.Nodup) : (insertSorted le a l).Nodup := by
  induction l with
  | nil => simp [insertSorted]
  | cons b t ih =>
    rcases List.nodup_cons.mp hl with ⟨hbt, ht⟩
    simp only [insertSorted]
    by_cases hle : le a b
    · simp only [hle, if_true]
      exact List.nodup_cons.mpr ⟨ha, hl⟩
    · simp only [hle, if_false]
      refine List.nodup_cons.mpr ⟨?_, ih (fun h => ha (by simp [h])) ht⟩
      rw [mem_insertSorted_iff]
      rintro (h | h)
      · exact ha (by simp [h])
      · exact hbt h

theorem nodup_sortWith {le : α → α → Bool} {l : List α} (hl : l.Nodup) :
    (sortWith le l).Nodup := by
  induction l with
  | nil => simp [sortWith]
  | cons a t ih =>
    rcases List.nodup_cons.mp hl with ⟨hat, ht⟩
    exact nodup_insertSorted (fun h => hat (mem_sortWith h)) (ih ht)

/-- `new Set(...)` insertion-order (first occurrence) deduplication. -/
def setDedupAux (seen : List String) : List String → List String
  | [] => []
  | a :: l =>
    if a ∈ seen then setDedupAux seen l else a :: setDedupAux (a :: seen) l

def setDedup (l : List String) : List String := setDedupAux [] l

theorem mem_setDedupAux {x : String} : ∀ {l seen : List String},
    x ∈ setDedupAux seen l ↔ x ∈ l ∧ x ∉ seen := by
  intro l
  induction l with
  | nil => simp [setDedupAux]
  | cons a t ih =>
    intro seen
    simp only [setDedupAux]
    by_cases h : a ∈ seen
    · rw [if_pos h, ih]
      constructor
      · rintro ⟨hl, hs⟩
        exact ⟨List.mem_cons.mpr (Or.inr hl), hs⟩
      · rintro ⟨hor, hs⟩
        rcases List.mem_cons.mp hor with rfl | hl
        · exact absurd h hs
        · exact ⟨hl, hs⟩
    · rw [if_neg h]
      constructor
      · intro hx
        rcases List.mem_cons.mp hx with rfl | hx
        · exact ⟨by simp, h⟩
        · rcases ih.mp hx with ⟨hl, hs⟩
          exact ⟨List.mem_cons.mpr (Or.inr hl),
            fun hseen => hs (by simp [hseen])⟩
      · rintro ⟨hor, hs⟩
        by_cases hxa : x = a
        · simp [hxa]
        · rcases List.mem_cons.mp hor with rfl | hl
          · exact absurd rfl hxa
          · exact List.mem_cons.mpr (Or.inr (ih.mpr ⟨hl, by simp [hxa, hs]⟩))

theorem mem_setDedup {x : String} {l : List String} :
    x ∈ setDedup l ↔ x ∈ l := by
  rw [setDedup, mem_setDedupAux]
  simp

theorem nodup_setDedupAux : ∀ (l seen : List String),
    (setDedupAux seen l).Nodup := by
  intro l
  induction l with
  | nil => intro seen; simp [setDedupAux]
  | cons a t ih =>
    intro seen
    simp only [setDedupAux]
    by_cases h : a ∈ seen
    · simpa [h] using ih seen
    · rw [if_neg h]
      refine List.nodup_cons.mpr ⟨?_, ih (a :: seen)⟩
      rw [mem_setDedupAux]
      rintro ⟨_, habs⟩
      exact habs (by simp)

/-- Two lists sorted by an antisymmetric "keeps-order" predicate, without
duplicates and with the same elements, are equal. -/
theorem sorted_nodup_unique {α : Type} {le : α → α → Bool}
    (hanti : ∀ a b, le a b = true → le b a = true → a = b) :
    ∀ (l1 l2 : List α), l1.Pairwise (le · · = true) →
      l2.Pairwise (le · · = true) → l1.Nodup → l2.Nodup →
      (∀ x, x ∈ l1 ↔ x ∈ l2) → l1 = l2 := by
  intro l1
  induction l1 with
  | nil =>
    intro l2 _ _ _ _ hmem
    cases l2 with
    | nil => rfl
    | cons b t2 => exact absurd ((hmem b).mpr (by simp)) (by simp)
  | cons a t1 ih =>
    intro l2 hp1 hp2 hn1 hn2 hmem
    cases l2 with
    | nil => exact absurd ((hmem a).mp (by simp)) (by simp)
    | cons b t2 =>
      rcases List.pairwise_cons.mp hp1 with ⟨ha1, hp1'⟩
      rcases List.pairwise_cons.mp hp2 with ⟨hb2, hp2'⟩
      rcases List.nodup_cons.mp hn1 with ⟨hna, hn1'⟩
      rcases List.nodup_cons.mp hn2 with ⟨hnb, hn2'⟩
      have hab : a = b := by
        rcases List.mem_cons.mp ((hmem a).mp (by simp)) with h | h
        · exact h
        · have hba : le b a = true := hb2 a h
          rcases List.mem_cons.mp ((hmem b).mpr (by simp)) with h' | h'
          · exact h'.symm
          · exact hanti a b (ha1 b h') hba
      subst hab
      have htails : ∀ x, x ∈ t1 ↔ x ∈ t2 := by
        intro x
        constructor
        · intro hx
          have hxa : x ≠ a := fun h => hna (h ▸ hx)
          rcases List.mem_cons.mp ((hmem x).mp (by simp [hx])) with h | h
          · exact absurd h hxa
          · exact h
        · intro hx
          have hxa : x ≠ a := fun h => hnb (h ▸ hx)
          rcases List.mem_cons.mp ((hmem x).mpr (by simp [hx])) with h | h
          · exact absurd h hxa
          · exact h
      rw [ih t2 hp1' hp2' hn1' hn2' htails]

/-- `GET /api/health-records/data-types`. -/
def dataTypesHandler (healthRecords : List HealthRecord) : List String :=
  sortWith strAscLe (setDedup (healthRecords.map (·.dataType)))

/-- The fixed enumeration of generator.js. -/
def generatorDataTypes : List String :=
  ["HEART_RATE", "STEPS", "SLEEP", "ACTIVE_MINUTES", "CALORIES",
   "BLOOD_OXYGEN", "STRESS", "HRV"]

/-- The 8 data types in ascending lexicographic order. -/
def sortedDataTypes : List String :=
  ["ACTIVE_MINUTES", "BLOOD_OXYGEN", "CALORIES", "HEART_RATE", "HRV",
   "SLEEP", "STEPS", "STRESS"]

theorem mem_generator_iff_sorted (x : String) :
    x ∈ generatorDataTypes ↔ x ∈ sortedDataTypes := by
  simp only [generatorDataTypes, sortedDataTypes, List.mem_cons,
    List.not_mem_nil]
  tauto

/-- C5 (amended): `GET /health-records/data-types` returns the distinct
data-type strings observed in the collection, sorted ascending; whenever
the collection draws from the fixed 8-type enumeration and contains at
least one record of each of the 8 types, the result is exactly the 8 fixed
strings sorted ascending. -/
theorem data_types_spec (healthRecords : List HealthRecord)
    (hin : ∀ r ∈ healthRecords, r.dataType ∈ generatorDataTypes)
    (hcover : ∀ t ∈ generatorDataTypes, ∃ r ∈ healthRecords,
      r.dataType = t) :
    dataTypesHandler healthRecords = sortedDataTypes := by
  apply sorted_nodup_unique (fun a b => strAscLe_antisymm)
  · exact pairwise_sortWith (P := fun _ => True)
      (fun a b _ _ => strAscLe_total a b)
      (fun a b c _ _ _ => strAscLe_trans)
      (fun _ _ => trivial)
  · decide
  · exact nodup_sortWith (nodup_setDedupAux _ _)
  · decide
  · intro x
    rw [dataTypesHandler, mem_sortWith_iff, mem_setDedup,
      ← mem_generator_iff_sorted]
    constructor
    · intro hx
      obtain ⟨r, hr, rfl⟩ := List.mem_map.mp hx
      exact hin r hr
    · intro hx
      obtain ⟨r, hr, hrt⟩ := hcover x hx
      exact List.mem_map.mpr ⟨r, hr, hrt⟩

/-- A minimal health record of a given data type. -/
def mkTypeRecord (t : String) : HealthRecord :=
  { recordId := "REC-00000009"
    userAddress := "0x09"
    dataType := t
    value := .num 1
    unit := "u"
    deviceType := "GARMIN"
    timestamp := 0
    validatedBy := "NODE-000001"
    validationStatus := "PENDING"
    rewardEarned := "1.0000" }

/-- Witness for C5: a collection covering all 8 types yields exactly the 8
sorted strings. -/
theorem data_types_spec_witness :
    dataTypesHandler (generatorDataTypes.map mkTypeRecord)
      = sortedDataTypes :=
  data_types_spec (generatorDataTypes.map mkTypeRecord)
    (by decide) (by decide)

/-- Counterexample to C5 as stated: a 1-record collection (dataType
`"STEPS"`) makes the endpoint return `["STEPS"]`, not the 8 fixed strings —
the endpoint reports *observed* values, not the fixed enumeration. -/
theorem data_types_counterexample :
    dataTypesHandler [mkTypeRecord "STEPS"] ≠ sortedDataTypes := by decide

/-! ### GET /api/stats: the network health score (routes/stats.js)

    const avgUptime = nodes.reduce((s, n) => s + parseFloat(n.uptime), 0) / totalNodes;
    const validationRate = (validatedRecords / totalHealthRecords) * 100;
    const activeNodeRate = (activeNodes / totalNodes) * 100;
    const networkHealth = ((avgUptime + validationRate + activeNodeRate) / 3).toFixed(1);

`NaN` (an unparseable uptime, or division over an empty collection) is
modelled as `none`. -/

/-- JS `Number.prototype.toFixed(1)` for the non-negative magnitudes
produced here: round half up to one decimal. -/
def toFixed1 (q : ℚ) : String :=
  let n : Int := ⌊q * 10 + 1/2⌋
  toString (n / 10) ++ "." ++ toString (n % 10)

/-- JS `Number.prototype.toFixed(2)` for non-negative magnitudes: round
half up to two decimals, zero-padded. -/
def toFixed2 (q : ℚ) : String :=
  let n : Int := ⌊q * 100 + 1/2⌋
  toString (n / 100) ++ "." ++
    (if n % 100 < 10 then "0" ++ toString (n % 100) else toString (n % 100))

/-- `coll.reduce((sum, x) => sum + parseFloat(x), 0)`, with `NaN` as
`none`. -/
def sumParsedFloats : List String → Option ℚ
  | [] => some 0
  | s :: l =>
    match parseFloatQ s, sumParsedFloats l with
    | some q, some t => some (q + t)
    | _, _ => none

/-- The network health score before formatting. -/
def networkHealthQ (nodes : List Node) (healthRecords : List HealthRecord) :
    Option ℚ :=
  let totalNodes := nodes.length
  let activeNodes := (nodes.filter (fun n => n.status == "ACTIVE")).length
  let totalHealthRecords := healthRecords.length
  let validatedRecords := (healthRecords.filter
    (fun r => r.validationStatus == "VALIDATED")).length
  if totalNodes = 0 ∨ totalHealthRecords = 0 then none
  else
    match sumParsedFloats (nodes.map (·.uptime)) with
    | none => none
    | some su =>
      let avgUptime := su / (totalNodes : ℚ)
      let validationRate := ((validatedRecords : ℚ) / totalHealthRecords) * 100
      let activeNodeRate := ((activeNodes : ℚ) / totalNodes) * 100
      some ((avgUptime + validationRate + activeNodeRate) / 3)

/-- The `networkHealth` field of the `GET /api/stats` response. -/
def networkHealth (nodes : List Node) (healthRecords : List HealthRecord) :
    Option String :=
  (networkHealthQ nodes healthRecords).map toFixed1

theorem sumParsedFloats_bounds : ∀ (l : List String),
    (∀ s ∈ l, ∃ u : ℚ, parseFloatQ s = some u ∧ 0 ≤ u ∧ u ≤ 100) →
    ∃ t : ℚ, sumParsedFloats l = some t ∧ 0 ≤ t ∧ t ≤ 100 * l.length := by
  intro l
  induction l with
  | nil => exact fun _ => ⟨0, rfl, le_refl 0, by simp⟩
  | cons s l ih =>
    intro h
    obtain ⟨u, hu, hu0, hu100⟩ := h s (by simp)
    obtain ⟨t, ht, ht0, htb⟩ := ih (fun x hx => h x (by simp [hx]))
    refine ⟨u + t, ?_, by linarith, ?_⟩
    · simp [sumParsedFloats, hu, ht]
    · have : (100 : ℚ) * (s :: l).length = 100 + 100 * l.length := by
        simp only [List.length_cons]
        push_cast
        ring
      linarith [this]

/-- C6 (amended): the network health score equals the unweighted arithmetic
mean of average node uptime, health-record validation rate and active-node
rate (each a percentage) and always lies in `[0, 100]`; at the boundary it
is formatted with `toFixed(1)` — one decimal place, not two. -/
theorem network_health_spec (nodes : List Node)
    (healthRecords : List HealthRecord)
    (hn : nodes ≠ []) (hr : healthRecords ≠ [])
    (hup : ∀ n ∈ nodes, ∃ u : ℚ,
      parseFloatQ n.uptime = some u ∧ 0 ≤ u ∧ u ≤ 100) :
    ∃ q : ℚ, networkHealthQ nodes healthRecords = some q ∧
      (∃ su : ℚ, sumParsedFloats (nodes.map (·.uptime)) = some su ∧
        q = (su / (nodes.length : ℚ)
            + (((healthRecords.filter
                (fun r => r.validationStatus == "VALIDATED")).length : ℚ)
                  / (healthRecords.length : ℚ)) * 100
            + (((nodes.filter (fun n => n.status == "ACTIVE")).length : ℚ)
                  / (nodes.length : ℚ)) * 100) / 3) ∧
      0 ≤ q ∧ q ≤ 100 ∧
      networkHealth nodes healthRecords = some (toFixed1 q) := by
  have hN : 0 < nodes.length := List.length_pos.mpr hn
  have hR : 0 < healthRecords.length := List.length_pos.mpr hr
  have hNq : (0 : ℚ) < (nodes.length : ℚ) := by exact_mod_cast hN
  have hRq : (0 : ℚ) < (healthRecords.length : ℚ) := by exact_mod_cast hR
  obtain ⟨su, hsu, hsu0, hsub⟩ := sumParsedFloats_bounds
    (nodes.map (·.uptime)) (by
      intro s hs
      obtain ⟨n, hnmem, rfl⟩ := List.mem_map.mp hs
      exact hup n hnmem)
  rw [List.length_map] at hsub
  set A := (nodes.filter (fun n => n.status == "ACTIVE")).length with hA
  set V := (healthRecords.filter
    (fun r => r.validationStatus == "VALIDATED")).length with hV
  have hAle : A ≤ nodes.length := List.length_filter_le _ _
  have hVle : V ≤ healthRecords.length := List.length_filter_le _ _
  have hAq : (A : ℚ) ≤ (nodes.length : ℚ) := by exact_mod_cast hAle
  have hVq : (V : ℚ) ≤ (healthRecords.length : ℚ) := by exact_mod_cast hVle
  set q := (su / (nodes.length : ℚ)
      + ((V : ℚ) / (healthRecords.length : ℚ)) * 100
      + ((A : ℚ) / (nodes.length : ℚ)) * 100) / 3 with hq
  have havg0 : (0 : ℚ) ≤ su / (nodes.length : ℚ) := by positivity
  have havg100 : su / (nodes.length : ℚ) ≤ 100 := by
    rw [div_le_iff₀ hNq]
    linarith
  have hvr0 : (0 : ℚ) ≤ ((V : ℚ) / (healthRecords.length : ℚ)) * 100 := by
    positivity
  have hvr100 : ((V : ℚ) / (healthRecords.length : ℚ)) * 100 ≤ 100 := by
    have h1 : (V : ℚ) / (healthRecords.length : ℚ) ≤ 1 := by
      rw [div_le_one hRq]
      exact hVq
    nlinarith
  have har0 : (0 : ℚ) ≤ ((A : ℚ) / (nodes.length : ℚ)) * 100 := by positivity
  have har100 : ((A : ℚ) / (nodes.length : ℚ)) * 100 ≤ 100 := by
    have h1 : (A : ℚ) / (nodes.length : ℚ) ≤ 1 := by
      rw [div_le_one hNq]
      exact hAq
    nlinarith
  have hcompute : networkHealthQ nodes healthRecords = some q := by
    simp only [networkHealthQ, hsu]
    rw [if_neg (by omega)]
  refine ⟨q, hcompute, ⟨su, hsu, rfl⟩, ?_, ?_, ?_⟩
  · rw [hq]
    positivity
  · rw [hq]
    linarith
  · rw [networkHealth, hcompute, Option.map_some']

def nhNode : Node :=
  { nodeId := "NODE-000010"
    operatorAddress := "0xcc"
    nodeType := "VALIDATOR"
    region := "EU-WEST"
    status := "ACTIVE"
    stakedAmount := "10000.000000"
    totalRewardsEarned := "500.000000"
    uptime := "90.0"
    validationsPerformed := 50000
    validationsSuccessful := 47000
    validationsFailed := 3000
    slashingEvents := 0
    registeredAt := 0
    lastHeartbeat := 0 }

def nhRecord : HealthRecord :=
  { recordId := "REC-00000010"
    userAddress := "0x10"
    dataType := "HEART_RATE"
    value := .num 70
    unit := "bpm"
    deviceType := "OURA"
    timestamp := 0
    validatedBy := "NODE-000010"
    validationStatus := "VALIDATED"
    rewardEarned := "1.0000" }

/-- Witness for C6: one ACTIVE node with uptime 90.0 and one VALIDATED
record. -/
theorem network_health_spec_witness :
    ∃ q : ℚ, networkHealthQ [nhNode] [nhRecord] = some q ∧
      (∃ su : ℚ, sumParsedFloats ([nhNode].map (·.uptime)) = some su ∧
        q = (su / (([nhNode] : List Node).length : ℚ)
            + ((([nhRecord].filter
                (fun r => r.validationStatus == "VALIDATED")).length : ℚ)
                  / (([nhRecord] : List HealthRecord).length : ℚ)) * 100
            + ((([nhNode].filter (fun n => n.status == "ACTIVE")).length : ℚ)
                  / (([nhNode] : List Node).length : ℚ)) * 100) / 3) ∧
      0 ≤ q ∧ q ≤ 100 ∧
      networkHealth [nhNode] [nhRecord] = some (toFixed1 q) :=
  network_health_spec [nhNode] [nhRecord] (by decide) (by decide)
    (by
      intro n hn
      rcases List.mem_singleton.mp hn with rfl
      exact ⟨(1 : ℚ) * (((90 : Nat) : ℚ) + ((0 : Nat) : ℚ) / (10 : ℚ) ^ 1),
        rfl, by norm_num, by norm_num⟩)

/-- Counterexample to C6 as stated: the network health score is formatted
with `toFixed(1)`, not to 2 decimal places.  On a dataset whose score is
`290/3 ≈ 96.67` the endpoint renders `"96.7"`, while the claimed 2-decimal
rendering is `"96.67"`. -/
theorem network_health_counterexample :
    networkHealthQ [nhNode] [nhRecord] = some (290/3 : ℚ) ∧
    networkHealth [nhNode] [nhRecord] = some "96.7" ∧
    toFixed2 (290/3 : ℚ) = "96.67" ∧
    "96.7" ≠ "96.67" := by
  have hsum : sumParsedFloats (([nhNode] : List Node).map (·.uptime))
      = some ((1 : ℚ) * (((90 : Nat) : ℚ) + ((0 : Nat) : ℚ) / (10 : ℚ) ^ 1)
        + 0) := rfl
  have h1 : networkHealthQ [nhNode] [nhRecord] = some (290/3 : ℚ) := by
    simp only [networkHealthQ, hsum]
    rw [if_neg (by decide)]
    have hA : (List.filter (fun n => n.status == "ACTIVE")
        ([nhNode] : List Node)).length = 1 := rfl
    have hV : (List.filter (fun r => r.validationStatus == "VALIDATED")
        ([nhRecord] : List HealthRecord)).length = 1 := rfl
    have hN : ([nhNode] : List Node).length = 1 := rfl
    have hR : ([nhRecord] : List HealthRecord).length = 1 := rfl
    rw [hA, hV, hN, hR, Option.some.injEq]
    norm_num
  have hf1 : (⌊(290 : ℚ)/3 * 10 + 1/2⌋ : ℤ) = 967 := by
    rw [Int.floor_eq_iff]
    norm_num
  have h2 : toFixed1 (290/3 : ℚ) = "96.7" := by
    simp only [toFixed1]
    rw [hf1]
    decide
  have hf2 : (⌊(290 : ℚ)/3 * 100 + 1/2⌋ : ℤ) = 9667 := by
    rw [Int.floor_eq_iff]
    norm_num
  have h3 : toFixed2 (290/3 : ℚ) = "96.67" := by
    simp only [toFixed2]
    rw [hf2]
    decide
  refine ⟨h1, ?_, h3, by decide⟩
  rw [networkHealth, h1, Option.map_some', h2]

/-! ### The remaining read-only routes (aggregations, discovery, lookups)

These complete the API surface so that the non-mutation claim can be
stated over every query and aggregation call.  JS object histograms
(`acc[k] = (acc[k] || 0) + 1`) are modelled as insertion-ordered
association lists; `Math.round` as `⌊x + 1/2⌋` (the values rounded here
are non-negative); a `reduce` without an initial value over an empty
array throws, which the route's `try/catch` turns into a 500 — modelled
as `none`. -/

/-- One step of `acc[k] = (acc[k] || 0) + 1` on an insertion-ordered
key/count list. -/
def bumpCount (acc : List (String × Nat)) (k : String) :
    List (String × Nat) :=
  if acc.any (fun kv => kv.1 == k) then
    acc.map (fun kv => if kv.1 == k then (kv.1, kv.2 + 1) else kv)
  else acc ++ [(k, 1)]

/-- `coll.reduce((acc, x) => {acc[f x] = (acc[f x] || 0) + 1; ...}, {})`. -/
def countBy (f : α → String) (l : List α) : List (String × Nat) :=
  l.foldl (fun acc x => bumpCount acc (f x)) []

/-- Whether a numeric sort comparator `x - y` keeps the pair in order
(`cmp <= 0`); a `NaN` operand makes every comparison false. -/
def numCmpLe (x y : Option ℚ) : Bool :=
  match x, y with
  | some a, some b => decide (a - b ≤ 0)
  | _, _ => false

/-- The projection mapped over the top stakers in `GET /api/stakers/stats`. -/
structure TopStaker where
  stakerId : String
  walletAddress : String
  stakedAmount : String
  delegatedTo : String
deriving DecidableEq, Repr

/-- `GET /api/stakers/stats` (the route formats the rational fields with
`toFixed(2)`/`toFixed(4)` at the boundary; the sort is
`[...stakers].sort((a, b) => parseFloat(b.stakedAmount) -
parseFloat(a.stakedAmount))`). -/
structure StakersStats where
  totalStakers : Nat
  totalStaked : Option ℚ
  totalPendingRewards : Option ℚ
  totalClaimedRewards : Option ℚ
  avgStake : Option ℚ
  avgMultiplier : Option ℚ
  byLockPeriod : List (String × Nat)
  topStakers : List TopStaker
deriving DecidableEq, Repr

def stakersStatsHandler (stakers : List Staker) : StakersStats :=
  let totalStakers := stakers.length
  let totalStaked := sumParsedFloats (stakers.map (·.stakedAmount))
  let totalPendingRewards := sumParsedFloats (stakers.map (·.pendingRewards))
  let totalClaimedRewards := sumParsedFloats (stakers.map (·.claimedRewards))
  let multSum := (stakers.map (·.stakingMultiplier)).foldl (· + ·) 0
  { totalStakers := totalStakers
    totalStaked := totalStaked
    totalPendingRewards := totalPendingRewards
    totalClaimedRewards := totalClaimedRewards
    avgStake := if totalStakers = 0 then none
      else totalStaked.map (· / (totalStakers : ℚ))
    avgMultiplier := if totalStakers = 0 then none
      else some (multSum / (totalStakers : ℚ))
    byLockPeriod := countBy (fun s => toString s.lockPeriod ++ " days")
      stakers
    topStakers := ((sortWith (fun a b =>
        numCmpLe (parseFloatQ b.stakedAmount) (parseFloatQ a.stakedAmount))
        stakers).take 10).map
      (fun s =>
        { stakerId := s.stakerId
          walletAddress := s.walletAddress
          stakedAmount := s.stakedAmount
          delegatedTo := s.delegatedTo }) }

/-- One entry of the `rewardsTrend` array of `GET /api/epochs/stats`. -/
structure RewardsTrendEntry where
  epoch : Int
  rewards : String
  validations : Nat
  activeNodes : Nat
deriving DecidableEq, Repr

/-- `GET /api/epochs/stats` (the trend sorts `[...epochs]` by epoch number
descending, slices to 10 and reverses; `Math.round` on the averages). -/
structure EpochsStats where
  totalEpochs : Nat
  totalRewardsDistributed : Option ℚ
  totalValidationsAllTime : Nat
  avgRewardsPerEpoch : Option ℚ
  avgValidationsPerEpoch : Option Int
  avgActiveNodes : Option Int
  avgActiveStakers : Option Int
  rewardsTrend : List RewardsTrendEntry
deriving DecidableEq, Repr

def epochsStatsHandler (epochs : List Epoch) : EpochsStats :=
  let totalEpochs := epochs.length
  let totalRewardsDistributed :=
    sumParsedFloats (epochs.map (·.totalRewardsPool))
  let totalValidationsAllTime :=
    (epochs.map (·.totalValidations)).foldl (· + ·) 0
  let activeNodesSum : Nat := (epochs.map (·.activeNodes)).foldl (· + ·) 0
  let activeStakersSum : Nat :=
    (epochs.map (·.activeStakers)).foldl (· + ·) 0
  let recentEpochs := ((sortWith
    (fun a b => decide ((b.epochNumber - a.epochNumber : Int) ≤ 0))
    epochs).take 10).reverse
  { totalEpochs := totalEpochs
    totalRewardsDistributed := totalRewardsDistributed
    totalValidationsAllTime := totalValidationsAllTime
    avgRewardsPerEpoch := if totalEpochs = 0 then none
      else totalRewardsDistributed.map (· / (totalEpochs : ℚ))
    avgValidationsPerEpoch := if totalEpochs = 0 then none
      else some ⌊(totalValidationsAllTime : ℚ) / (totalEpochs : ℚ) + (1/2 : ℚ)⌋
    avgActiveNodes := if totalEpochs = 0 then none
      else some ⌊(activeNodesSum : ℚ) / (totalEpochs : ℚ) + (1/2 : ℚ)⌋
    avgActiveStakers := if totalEpochs = 0 then none
      else some ⌊(activeStakersSum : ℚ) / (totalEpochs : ℚ) + (1/2 : ℚ)⌋
    rewardsTrend := recentEpochs.map (fun e =>
      { epoch := e.epochNumber
        rewards :=
          match parseFloatQ e.totalRewardsPool with
          | some q => toFixed2 q
          | none => "NaN"
        validations := e.totalValidations
        activeNodes := e.activeNodes }) }

/-- `GET /api/nodes/stats` (the route formats the rational fields with
`toFixed(2)` at the boundary). -/
structure NodesStats where
  totalNodes : Nat
  activeNodes : Nat
  totalStaked : Option ℚ
  totalRewards : Option ℚ
  avgUptime : Option ℚ
  totalValidations : Nat
  byType : List (String × Nat)
  byStatus : List (String × Nat)
  byRegion : List (String × Nat)
deriving DecidableEq, Repr

def nodesStatsHandler (nodes : List Node) : NodesStats :=
  let totalNodes := nodes.length
  { totalNodes := totalNodes
    activeNodes := (nodes.filter (fun n => n.status == "ACTIVE")).length
    totalStaked := sumParsedFloats (nodes.map (·.stakedAmount))
    totalRewards := sumParsedFloats (nodes.map (·.totalRewardsEarned))
    avgUptime := if totalNodes = 0 then none
      else (sumParsedFloats (nodes.map (·.uptime))).map
        (· / (totalNodes : ℚ))
    totalValidations := (nodes.map (·.validationsPerformed)).foldl (· + ·) 0
    byType := countBy (·.nodeType) nodes
    byStatus := countBy (·.status) nodes
    byRegion := countBy (·.region) nodes }

/-- One bucket of `recordsByDay`; the route renders
`new Date(dayEnd).toISOString().split('T')[0]` from this timestamp. -/
structure DayCount where
  dayEnd : Int
  count : Nat
deriving DecidableEq, Repr

/-- `GET /api/health-records/stats`; `now` is the wall-clock `Date.now()`
the 7-day bucketing is relative to.  `validationRate` is formatted with
`toFixed(2)` at the boundary. -/
structure HealthStats where
  totalRecords : Nat
  validatedRecords : Nat
  pendingRecords : Nat
  rejectedRecords : Nat
  validationRate : Option ℚ
  uniqueUsers : Nat
  byDataType : List (String × Nat)
  byDeviceType : List (String × Nat)
  recordsByDay : List DayCount
deriving DecidableEq, Repr

def healthStatsHandler (now : Int) (healthRecords : List HealthRecord) :
    HealthStats :=
  let totalRecords := healthRecords.length
  let validatedRecords := (healthRecords.filter
    (fun r => r.validationStatus == "VALIDATED")).length
  let dayMs : Int := 24 * 60 * 60 * 1000
  { totalRecords := totalRecords
    validatedRecords := validatedRecords
    pendingRecords := (healthRecords.filter
      (fun r => r.validationStatus == "PENDING")).length
    rejectedRecords := (healthRecords.filter
      (fun r => r.validationStatus == "REJECTED")).length
    validationRate := if totalRecords = 0 then none
      else some (((validatedRecords : ℚ) / (totalRecords : ℚ)) * 100)
    uniqueUsers := (setDedup (healthRecords.map (·.userAddress))).length
    byDataType := countBy (·.dataType) healthRecords
    byDeviceType := countBy (·.deviceType) healthRecords
    recordsByDay := ([6, 5, 4, 3, 2, 1, 0] : List Int).map (fun i =>
      let dayStart := now - (i + 1) * dayMs
      let dayEnd := now - i * dayMs
      { dayEnd := dayEnd
        count := (healthRecords.filter (fun r =>
          decide (dayStart ≤ r.timestamp) && decide (r.timestamp < dayEnd)
          )).length }) }

/-- `epochs.reduce((max, e) => e.epochNumber > max.epochNumber ? e : max)` —
no initial value, so an empty collection throws (caught as a 500). -/
def currentEpochOf (epochs : List Epoch) : Option Epoch :=
  match epochs with
  | [] => none
  | e :: rest =>
    some (rest.foldl
      (fun mx x => if mx.epochNumber < x.epochNumber then x else mx) e)

/-- `GET /api/epochs/current` (`topRewards` is `nodeRewards.slice(0, 10)`). -/
structure CurrentEpochResp where
  epochNumber : Int
  startTime : Int
  endTime : Int
  totalRewardsPool : String
  totalValidations : Nat
  activeNodes : Nat
  activeStakers : Nat
  topRewards : List NodeReward
deriving DecidableEq, Repr

def epochCurrentHandler (epochs : List Epoch) : Option CurrentEpochResp :=
  (currentEpochOf epochs).map (fun c =>
    { epochNumber := c.epochNumber
      startTime := c.startTime
      endTime := c.endTime
      totalRewardsPool := c.totalRewardsPool
      totalValidations := c.totalValidations
      activeNodes := c.activeNodes
      activeStakers := c.activeStakers
      topRewards := c.nodeRewards.take 10 })

/-- `GET /api/stats` (part_001): the composite snapshot.  Rational fields
are formatted with `toFixed(2)` at the boundary; `networkHealth` is the
`toFixed(1)` string of `networkHealthQ`; an empty epochs collection makes
the `currentEpoch` reduce throw, turning the whole request into a 500
(`none`). -/
structure PlatformStats where
  totalNodes : Nat
  activeNodes : Nat
  totalNodeStake : Option ℚ
  avgUptime : Option ℚ
  networkHealth : Option String
  totalStakers : Nat
  totalStaked : Option ℚ
  totalPendingRewards : Option ℚ
  avgStakePerUser : Option ℚ
  totalHealthRecords : Nat
  validatedRecords : Nat
  pendingRecords : Nat
  validationRate : Option ℚ
  uniqueUsers : Nat
  totalEpochs : Nat
  currentEpoch : Int
  totalRewardsDistributed : Option ℚ
  avgRewardsPerEpoch : Option ℚ
  totalTransactions : Nat
  totalVolume : Option ℚ
  confirmedRate : Option ℚ
deriving DecidableEq, Repr

def statsHandler (nodes : List Node) (stakers : List Staker)
    (healthRecords : List HealthRecord) (epochs : List Epoch)
    (transactions : List Transaction) : Option PlatformStats :=
  match currentEpochOf epochs with
  | none => none
  | some currentEpoch =>
    let totalNodes := nodes.length
    let totalStakers := stakers.length
    let totalStaked := sumParsedFloats (stakers.map (·.stakedAmount))
    let totalHealthRecords := healthRecords.length
    let validatedRecords := (healthRecords.filter
      (fun r => r.validationStatus == "VALIDATED")).length
    let totalEpochs := epochs.length
    let totalRewardsDistributed :=
      sumParsedFloats (epochs.map (·.totalRewardsPool))
    let totalTransactions := transactions.length
    some
      { totalNodes := totalNodes
        activeNodes := (nodes.filter (fun n => n.status == "ACTIVE")).length
        totalNodeStake := sumParsedFloats (nodes.map (·.stakedAmount))
        avgUptime := if totalNodes = 0 then none
          else (sumParsedFloats (nodes.map (·.uptime))).map
            (· / (totalNodes : ℚ))
        networkHealth := ChainHealth.networkHealth nodes healthRecords
        totalStakers := totalStakers
        totalStaked := totalStaked
        totalPendingRewards :=
          sumParsedFloats (stakers.map (·.pendingRewards))
        avgStakePerUser := if totalStakers = 0 then none
          else totalStaked.map (· / (totalStakers : ℚ))
        totalHealthRecords := totalHealthRecords
        validatedRecords := validatedRecords
        pendingRecords := (healthRecords.filter
          (fun r => r.validationStatus == "PENDING")).length
        validationRate := if totalHealthRecords = 0 then none
          else some (((validatedRecords : ℚ)
            / (totalHealthRecords : ℚ)) * 100)
        uniqueUsers := (setDedup (healthRecords.map (·.userAddress))).length
        totalEpochs := totalEpochs
        currentEpoch := currentEpoch.epochNumber
        totalRewardsDistributed := totalRewardsDistributed
        avgRewardsPerEpoch := if totalEpochs = 0 then none
          else totalRewardsDistributed.map (· / (totalEpochs : ℚ))
        totalTransactions := totalTransactions
        totalVolume := sumParsedFloats (transactions.map (·.amount))
        confirmedRate := if totalTransactions = 0 then none
          else some ((((transactions.filter
              (fun tx => tx.status == "CONFIRMED")).length : ℚ)
            / (totalTransactions : ℚ)) * 100) }

/-- `GET /api/stats/overview`. -/
structure StatsOverview where
  activeNodes : Nat
  totalStaked : Option ℚ
  healthRecordsValidated : Nat
  totalRewardsDistributed : Option ℚ
  totalUsers : Nat
  totalTransactions : Nat
deriving DecidableEq, Repr

def statsOverviewHandler (nodes : List Node) (stakers : List Staker)
    (healthRecords : List HealthRecord) (epochs : List Epoch)
    (transactions : List Transaction) : StatsOverview :=
  { activeNodes := (nodes.filter (fun n => n.status == "ACTIVE")).length
    totalStaked := sumParsedFloats (stakers.map (·.stakedAmount))
    healthRecordsValidated := (healthRecords.filter
      (fun r => r.validationStatus == "VALIDATED")).length
    totalRewardsDistributed :=
      sumParsedFloats (epochs.map (·.totalRewardsPool))
    totalUsers := (setDedup (healthRecords.map (·.userAddress))).length
    totalTransactions := transactions.length }

/-- `GET /api/health-records/device-types`. -/
def deviceTypesHandler (healthRecords : List HealthRecord) : List String :=
  sortWith strAscLe (setDedup (healthRecords.map (·.deviceType)))

/-- `GET /api/transactions/types`. -/
def transactionTypesHandler (transactions : List Transaction) :
    List String :=
  sortWith strAscLe (setDedup (transactions.map (·.txType)))

/-- `GET /api/stakers/wallet/:address`. -/
def stakerWalletLookup (stakers : List Staker) (address : String) :
    LookupResult Staker :=
  match stakers.find?
      (fun s => s.walletAddress.toLower == address.toLower) with
  | none => .notFound "Staker not found"
  | some s => .ok s

/-! ### Store-threaded wrappers for the remaining routes -/

def nodesStatsEndpoint (st : Store) : NodesStats × Store :=
  (nodesStatsHandler st.nodes, st)

def stakersStatsEndpoint (st : Store) : StakersStats × Store :=
  (stakersStatsHandler st.stakers, st)

def healthStatsEndpoint (now : Int) (st : Store) : HealthStats × Store :=
  (healthStatsHandler now st.healthRecords, st)

def epochsStatsEndpoint (st : Store) : EpochsStats × Store :=
  (epochsStatsHandler st.epochs, st)

def epochCurrentEndpoint (st : Store) : Option CurrentEpochResp × Store :=
  (epochCurrentHandler st.epochs, st)

def statsEndpoint (st : Store) : Option PlatformStats × Store :=
  (statsHandler st.nodes st.stakers st.healthRecords st.epochs
    st.transactions, st)

def statsOverviewEndpoint (st : Store) : StatsOverview × Store :=
  (statsOverviewHandler st.nodes st.stakers st.healthRecords st.epochs
    st.transactions, st)

def dataTypesEndpoint (st : Store) : List String × Store :=
  (dataTypesHandler st.healthRecords, st)

def deviceTypesEndpoint (st : Store) : List String × Store :=
  (deviceTypesHandler st.healthRecords, st)

def transactionTypesEndpoint (st : Store) : List String × Store :=
  (transactionTypesHandler st.transactions, st)

def nodeLookupEndpoint (st : Store) (id : String) :
    LookupResult Node × Store :=
  (nodeLookup st.nodes id, st)

def stakerLookupEndpoint (st : Store) (id : String) :
    LookupResult StakerDetail × Store :=
  (stakerLookup st.stakers st.nodes id, st)

def stakerWalletEndpoint (st : Store) (address : String) :
    LookupResult Staker × Store :=
  (stakerWalletLookup st.stakers address, st)

def healthRecordLookupEndpoint (st : Store) (id : String) :
    LookupResult HealthRecord × Store :=
  (healthRecordLookup st.healthRecords id, st)

def epochLookupEndpoint (st : Store) (param : String) :
    LookupResult Epoch × Store :=
  (epochLookup st.epochs param, st)

def transactionLookupEndpoint (st : Store) (hash : String) :
    LookupResult Transaction × Store :=
  (transactionLookup st.transactions hash, st)

/-- C8: no query or aggregation call mutates a stored collection — after
any request of the API surface (the five list routes, the five entity
stats routes, the composite `/stats` and `/stats/overview`, the three
discovery routes, `/epochs/current`, and the six lookups) the store holds
the same records in the same order as before.  Every JS statement of each
route is translated on the threaded store: none assigns to a module-level
collection, and the only in-place sorts act on the `[...coll]` spread
copies, which the functional translation renders as fresh values — so the
store returns unchanged, definitionally. -/
theorem no_mutation_spec (st : Store) :
    (∀ q : NodesQuery, (nodesEndpoint st q).2 = st) ∧
    (∀ q : StakersQuery, (stakersEndpoint st q).2 = st) ∧
    (∀ q : HealthQuery, (healthRecordsEndpoint st q).2 = st) ∧
    (∀ q : EpochsQuery, (epochsEndpoint st q).2 = st) ∧
    (∀ q : TransactionsQuery, (transactionsEndpoint st q).2 = st) ∧
    (nodesStatsEndpoint st).2 = st ∧
    (stakersStatsEndpoint st).2 = st ∧
    (∀ now : Int, (healthStatsEndpoint now st).2 = st) ∧
    (epochsStatsEndpoint st).2 = st ∧
    (transactionsStatsEndpoint st).2 = st ∧
    (statsEndpoint st).2 = st ∧
    (statsOverviewEndpoint st).2 = st ∧
    (dataTypesEndpoint st).2 = st ∧
    (deviceTypesEndpoint st).2 = st ∧
    (transactionTypesEndpoint st).2 = st ∧
    (epochCurrentEndpoint st).2 = st ∧
    (∀ id : String, (nodeLookupEndpoint st id).2 = st) ∧
    (∀ id : String, (stakerLookupEndpoint st id).2 = st) ∧
    (∀ address : String, (stakerWalletEndpoint st address).2 = st) ∧
    (∀ id : String, (healthRecordLookupEndpoint st id).2 = st) ∧
    (∀ param : String, (epochLookupEndpoint st param).2 = st) ∧
    (∀ hash : String, (transactionLookupEndpoint st hash).2 = st) :=
  ⟨fun _ => rfl, fun _ => rfl, fun _ => rfl, fun _ => rfl, fun _ => rfl,
   rfl, rfl, fun _ => rfl, rfl, rfl, rfl, rfl, rfl, rfl, rfl, rfl,
   fun _ => rfl, fun _ => rfl, fun _ => rfl, fun _ => rfl, fun _ => rfl,
   fun _ => rfl⟩

end ChainHealth
